import Mathlib

/-!
# Tracer capture-session controller: verification of the spec claims

Shallow embedding of the `tracer` desktop capture tool (TypeScript/Electron).
The embedded code lives mainly in `src/main/session/SessionManager.ts`,
`src/main/session/eventFactory.ts` and the NDJSON helpers in
`src/main/session/utils.ts` (unnamed part_005).  JavaScript numbers that the
program only ever uses as integer milliseconds / counts are modelled as `Int`
(or `Nat` for counters); JavaScript strings are modelled as `String` /
`List Char`.

The JSON value type below models the JSON documents produced by
`JSON.stringify` for capture events: objects, strings, integer numbers,
booleans and `null`.  (Arrays never occur in serialized events, so they are
omitted from the model.)  `jstr` models compact `JSON.stringify` output,
including its string-escaping rules; `parseJson` models `JSON.parse` on that
grammar.
-/

namespace Tracer

mutual
/-- JSON values as they occur in serialized capture events. -/
inductive Json where
  | null : Json
  | bool (b : Bool) : Json
  | num (n : Int) : Json
  | str (s : List Char) : Json
  | obj (members : Members) : Json
deriving DecidableEq
/-- The key/value list of a JSON object, in insertion order (which is the
order `JSON.stringify` emits). -/
inductive Members where
  | nil : Members
  | cons (key : List Char) (value : Json) (rest : Members) : Members
deriving DecidableEq
end

/-- Decimal digit character for `d < 10`. -/
def digitChar (d : Nat) : Char :=
  match d with
  | 0 => '0' | 1 => '1' | 2 => '2' | 3 => '3' | 4 => '4'
  | 5 => '5' | 6 => '6' | 7 => '7' | 8 => '8' | _ => '9'

/-- Lowercase hex digit character for `d < 16` (as emitted in `\u00xx`
escapes by `JSON.stringify`). -/
def hexChar (d : Nat) : Char :=
  match d with
  | 0 => '0' | 1 => '1' | 2 => '2' | 3 => '3' | 4 => '4'
  | 5 => '5' | 6 => '6' | 7 => '7' | 8 => '8' | 9 => '9'
  | 10 => 'a' | 11 => 'b' | 12 => 'c' | 13 => 'd' | 14 => 'e' | _ => 'f'

/-- Decimal digit characters of a natural number, most significant first. -/
def natChars (n : Nat) : List Char :=
  if _h : n < 10 then [digitChar n]
  else natChars (n / 10) ++ [digitChar (n % 10)]
  termination_by n
  decreasing_by exact Nat.div_lt_self (by omega) (by omega)

/-- Decimal representation of an integer, as printed by `JSON.stringify` for
integral numbers. -/
def intChars (n : Int) : List Char :=
  if n < 0 then '-' :: natChars n.natAbs else natChars n.natAbs

/-- The escape sequence `JSON.stringify` emits for one character inside a
string literal: `\"`, `\\`, named control escapes, `\u00xx` for the other
control characters, and every remaining character verbatim. -/
def escChar (c : Char) : List Char :=
  if c = '"' then ['\\', '"']
  else if c = '\\' then ['\\', '\\']
  else if c = '\n' then ['\\', 'n']
  else if c = '\r' then ['\\', 'r']
  else if c = '\t' then ['\\', 't']
  else if c.toNat = 8 then ['\\', 'b']
  else if c.toNat = 12 then ['\\', 'f']
  else if c.toNat < 32 then ['\\', 'u', '0', '0', hexChar (c.toNat / 16), hexChar (c.toNat % 16)]
  else [c]

/-- Body of a JSON string literal (without the surrounding quotes). -/
def escString (s : List Char) : List Char :=
  (s.map escChar).flatten

mutual
/-- Compact `JSON.stringify` output for a value. -/
def jstr : Json → List Char
  | .null => ['n', 'u', 'l', 'l']
  | .bool false => ['f', 'a', 'l', 's', 'e']
  | .bool true => ['t', 'r', 'u', 'e']
  | .num n => intChars n
  | .str s => '"' :: escString s ++ ['"']
  | .obj ms => '{' :: jstrMems ms ++ ['}']
/-- Compact `JSON.stringify` output for the member list of an object. -/
def jstrMems : Members → List Char
  | .nil => []
  | .cons k v .nil => '"' :: escString k ++ '"' :: ':' :: jstr v
  | .cons k v (.cons k2 v2 rest) =>
      ('"' :: escString k ++ '"' :: ':' :: jstr v) ++
        ',' :: jstrMems (.cons k2 v2 rest)
end

/-- Numeric value of a hex digit character (16 for non-hex-digits). -/
def hexVal (c : Char) : Nat :=
  if 48 ≤ c.toNat ∧ c.toNat ≤ 57 then c.toNat - 48
  else if 97 ≤ c.toNat ∧ c.toNat ≤ 102 then c.toNat - 87
  else if 65 ≤ c.toNat ∧ c.toNat ≤ 70 then c.toNat - 55
  else 16

/-- Is `c` a hex digit? -/
def isHex (c : Char) : Bool :=
  decide (hexVal c < 16)

/-- Parser for the remainder of a JSON string literal (the opening quote is
already consumed); returns the decoded characters and the rest of the
input.  The nested match decodes one escape sequence after a backslash. -/
def parseStr : List Char → Option (List Char × List Char)
  | [] => none
  | c :: rest =>
    if c = '"' then some ([], rest)
    else if c = '\\' then
      match rest with
      | [] => none
      | e :: rest2 =>
        if e = '"' then (parseStr rest2).map fun p => ('"' :: p.1, p.2)
        else if e = '\\' then (parseStr rest2).map fun p => ('\\' :: p.1, p.2)
        else if e = '/' then (parseStr rest2).map fun p => ('/' :: p.1, p.2)
        else if e = 'n' then (parseStr rest2).map fun p => ('\n' :: p.1, p.2)
        else if e = 'r' then (parseStr rest2).map fun p => ('\r' :: p.1, p.2)
        else if e = 't' then (parseStr rest2).map fun p => ('\t' :: p.1, p.2)
        else if e = 'b' then (parseStr rest2).map fun p => (Char.ofNat 8 :: p.1, p.2)
        else if e = 'f' then (parseStr rest2).map fun p => (Char.ofNat 12 :: p.1, p.2)
        else if e = 'u' then
          match rest2 with
          | a :: b :: c2 :: d :: rest3 =>
            if isHex a ∧ isHex b ∧ isHex c2 ∧ isHex d then
              (parseStr rest3).map fun p =>
                (Char.ofNat (hexVal a * 4096 + hexVal b * 256 + hexVal c2 * 16 + hexVal d) :: p.1, p.2)
            else none
          | _ => none
        else none
    else (parseStr rest).map fun p => (c :: p.1, p.2)
  termination_by structural cs => cs

/-- Is `c` a decimal digit (code points 48 to 57)? -/
def isDigitChar (c : Char) : Bool :=
  decide (48 ≤ c.toNat ∧ c.toNat ≤ 57)

/-- Maximal decimal-digit prefix of a character list. -/
def spanDigits : List Char → (List Char × List Char)
  | [] => ([], [])
  | c :: rest =>
    if isDigitChar c then
      let p := spanDigits rest
      (c :: p.1, p.2)
    else ([], c :: rest)

/-- Numeric value of a list of decimal digit characters. -/
def digitsVal (ds : List Char) : Nat :=
  ds.foldl (fun acc c => acc * 10 + (c.toNat - 48)) 0

/-- Parse the maximal digit prefix as a natural number; fails when the input
does not start with a digit. -/
def parseNatChars (cs : List Char) : Option (Nat × List Char) :=
  match spanDigits cs with
  | ([], _) => none
  | (ds, rest) => some (digitsVal ds, rest)

mutual
/-- Fuel-indexed parser for a JSON value (model of `JSON.parse` on the
whitespace-free grammar that `JSON.stringify` emits); returns the value and
the unconsumed rest of the input. -/
def parseJson : Nat → List Char → Option (Json × List Char)
  | 0, _ => none
  | _ + 1, [] => none
  | fuel + 1, c :: cs =>
    if c = 'n' then
      match cs with
      | 'u' :: 'l' :: 'l' :: rest => some (.null, rest)
      | _ => none
    else if c = 't' then
      match cs with
      | 'r' :: 'u' :: 'e' :: rest => some (.bool true, rest)
      | _ => none
    else if c = 'f' then
      match cs with
      | 'a' :: 'l' :: 's' :: 'e' :: rest => some (.bool false, rest)
      | _ => none
    else if c = '"' then
      (parseStr cs).map fun p => (.str p.1, p.2)
    else if c = '-' then
      (parseNatChars cs).map fun p => (.num (-(p.1 : Int)), p.2)
    else if c = '{' then
      match cs with
      | '}' :: rest => some (.obj .nil, rest)
      | _ => (parseMembers fuel cs).map fun p => (.obj p.1, p.2)
    else if isDigitChar c then
      (parseNatChars (c :: cs)).map fun p => (.num (p.1 : Int), p.2)
    else none
/-- Fuel-indexed parser for a non-empty member list of a JSON object; stops
after the closing brace. -/
def parseMembers : Nat → List Char → Option (Members × List Char)
  | 0, _ => none
  | fuel + 1, cs =>
    match cs with
    | '"' :: cs2 =>
      match parseStr cs2 with
      | none => none
      | some (k, r1) =>
        match r1 with
        | ':' :: r2 =>
          match parseJson fuel r2 with
          | none => none
          | some (v, r3) =>
            match r3 with
            | ',' :: r4 => (parseMembers fuel r4).map fun p => (.cons k v p.1, p.2)
            | '}' :: r4 => some (.cons k v .nil, r4)
            | _ => none
        | _ => none
    | _ => none
end

/-- Whitespace characters removed by `String.prototype.trim` that can be
adjacent to serialized event lines (ASCII subset; serialized lines never
contain any other whitespace at their ends). -/
def isWsChar (c : Char) : Bool :=
  c = ' ' ∨ c = '\t' ∨ c = '\n' ∨ c = '\r'

/-- Model of `String.prototype.trim` on a character list. -/
def jsTrim (cs : List Char) : List Char :=
  ((cs.dropWhile isWsChar).reverse.dropWhile isWsChar).reverse

/-- Split a character list at newline characters, like
`String.prototype.split(/\r?\n/)`: serialized event lines never contain a
carriage return, so splitting at `'\n'` alone is equivalent (a stray `'\r'`
before the newline would be removed by the subsequent trim anyway). -/
def splitNl : List Char → List (List Char)
  | [] => [[]]
  | c :: rest =>
    if c = '\n' then [] :: splitNl rest
    else
      match splitNl rest with
      | [] => [[c]]
      | l :: ls => (c :: l) :: ls

/-- One parsed NDJSON line: `JSON.parse` on the whole line (trailing garbage
is a parse error). -/
def parseJsonLine (cs : List Char) : Option Json :=
  match parseJson (cs.length + 1) cs with
  | some (v, []) => some v
  | _ => none

/-- `parseEventsNdjson` from `src/main/session/utils.ts`: split the raw text
into lines, trim each line, drop empty lines, and `JSON.parse` every
remaining line.  `none` models the exception thrown when a line is not valid
JSON. -/
def parseEventsNdjson (raw : String) : Option (List Json) :=
  (((splitNl raw.data).map jsTrim).filter (fun l => l ≠ [])).mapM parseJsonLine

/-! ## Round-trip of the JSON codec -/

/-- Does the input avoid starting with a decimal digit?  (Needed so that a
serialized number is not glued to what follows it.) -/
def notDigitStart : List Char → Bool
  | [] => true
  | c :: _ => !isDigitChar c

theorem digitChar_isDigit (d : Nat) : isDigitChar (digitChar d) = true := by
  unfold digitChar
  split <;> decide

theorem digitChar_val (d : Nat) (h : d < 10) : (digitChar d).toNat - 48 = d := by
  interval_cases d <;> decide

theorem natChars_ne_nil (n : Nat) : natChars n ≠ [] := by
  rw [natChars]
  split
  · simp
  · simp

theorem natChars_digits (n : Nat) : ∀ c ∈ natChars n, isDigitChar c = true := by
  induction n using Nat.strong_induction_on with
  | _ n ih =>
    rw [natChars]
    split
    · intro c hc
      simp only [List.mem_singleton] at hc
      subst hc
      exact digitChar_isDigit _
    · next h =>
      intro c hc
      rcases List.mem_append.mp hc with h2 | h2
      · exact ih (n / 10) (Nat.div_lt_self (by omega) (by omega)) c h2
      · simp only [List.mem_singleton] at h2
        subst h2
        exact digitChar_isDigit _

theorem digitsVal_append (xs : List Char) (c : Char) :
    digitsVal (xs ++ [c]) = digitsVal xs * 10 + (c.toNat - 48) := by
  simp [digitsVal, List.foldl_append]

theorem digitsVal_natChars (n : Nat) : digitsVal (natChars n) = n := by
  induction n using Nat.strong_induction_on with
  | _ n ih =>
    rw [natChars]
    split
    · next h =>
      simp only [digitsVal, List.foldl_cons, List.foldl_nil, Nat.zero_mul, Nat.zero_add]
      exact digitChar_val n h
    · next h =>
      rw [digitsVal_append, ih (n / 10) (Nat.div_lt_self (by omega) (by omega)),
        digitChar_val _ (Nat.mod_lt _ (by omega))]
      omega

theorem spanDigits_append (ds rest : List Char) (hds : ∀ c ∈ ds, isDigitChar c = true)
    (hrest : notDigitStart rest = true) : spanDigits (ds ++ rest) = (ds, rest) := by
  induction ds with
  | nil =>
    cases rest with
    | nil => rfl
    | cons r rs =>
      simp only [notDigitStart, Bool.not_eq_eq_eq_not, Bool.not_true] at hrest
      simp [spanDigits, hrest]
  | cons c cs ih =>
    have hc : isDigitChar c = true := hds c (by simp)
    simp only [List.cons_append, spanDigits, hc, if_pos, List.append_eq]
    rw [ih (fun x hx => hds x (by simp [hx]))]

theorem parseNatChars_natChars (n : Nat) (rest : List Char)
    (hrest : notDigitStart rest = true) :
    parseNatChars (natChars n ++ rest) = some (n, rest) := by
  rw [parseNatChars, spanDigits_append (natChars n) rest (natChars_digits n) hrest]
  cases hn : natChars n with
  | nil => exact absurd hn (natChars_ne_nil n)
  | cons c cs =>
    have hv : digitsVal (c :: cs) = n := by rw [← hn]; exact digitsVal_natChars n
    simp [hv]

theorem hexVal_hexChar (d : Nat) (h : d < 16) : hexVal (hexChar d) = d := by
  interval_cases d <;> decide

theorem isHex_hexChar (d : Nat) : isHex (hexChar d) = true := by
  unfold hexChar
  split <;> decide

theorem parseStr_plain (c : Char) (rest : List Char) (h1 : ¬c = '"') (h2 : ¬c = '\\') :
    parseStr (c :: rest) = (parseStr rest).map fun p => (c :: p.1, p.2) := by
  rw [parseStr.eq_def]
  simp only [if_neg h1, if_neg h2]

theorem parseStr_escU (a b c2 d : Char) (rest : List Char) :
    parseStr ('\\' :: 'u' :: a :: b :: c2 :: d :: rest) =
      if isHex a ∧ isHex b ∧ isHex c2 ∧ isHex d then
        (parseStr rest).map fun p =>
          (Char.ofNat (hexVal a * 4096 + hexVal b * 256 + hexVal c2 * 16 + hexVal d) :: p.1, p.2)
      else none := by
  rw [parseStr.eq_def]
  simp +decide

theorem parseStr_escChar (c : Char) (tail : List Char) :
    parseStr (escChar c ++ tail) = (parseStr tail).map fun p => (c :: p.1, p.2) := by
  by_cases h1 : c = '"'
  · subst h1
    rw [show escChar '"' = ['\\', '"'] from by decide]
    show parseStr ('\\' :: '"' :: tail) = _
    rw [parseStr.eq_def]
    simp +decide
  by_cases h2 : c = '\\'
  · subst h2
    rw [show escChar '\\' = ['\\', '\\'] from by decide]
    show parseStr ('\\' :: '\\' :: tail) = _
    rw [parseStr.eq_def]
    simp +decide
  by_cases h3 : c = '\n'
  · subst h3
    rw [show escChar '\n' = ['\\', 'n'] from by decide]
    show parseStr ('\\' :: 'n' :: tail) = _
    rw [parseStr.eq_def]
    simp +decide
  by_cases h4 : c = '\r'
  · subst h4
    rw [show escChar '\r' = ['\\', 'r'] from by decide]
    show parseStr ('\\' :: 'r' :: tail) = _
    rw [parseStr.eq_def]
    simp +decide
  by_cases h5 : c = '\t'
  · subst h5
    rw [show escChar '\t' = ['\\', 't'] from by decide]
    show parseStr ('\\' :: 't' :: tail) = _
    rw [parseStr.eq_def]
    simp +decide
  by_cases h6 : c.toNat = 8
  · rw [escChar, if_neg h1, if_neg h2, if_neg h3, if_neg h4, if_neg h5, if_pos h6]
    have hc : Char.ofNat 8 = c := by rw [← h6]; exact Char.ofNat_toNat c
    show parseStr ('\\' :: 'b' :: tail) = _
    rw [parseStr.eq_def]
    simp +decide
    simp only [hc]
  by_cases h7 : c.toNat = 12
  · rw [escChar, if_neg h1, if_neg h2, if_neg h3, if_neg h4, if_neg h5, if_neg h6, if_pos h7]
    have hc : Char.ofNat 12 = c := by rw [← h7]; exact Char.ofNat_toNat c
    show parseStr ('\\' :: 'f' :: tail) = _
    rw [parseStr.eq_def]
    simp +decide
    simp only [hc]
  by_cases h8 : c.toNat < 32
  · rw [escChar, if_neg h1, if_neg h2, if_neg h3, if_neg h4, if_neg h5, if_neg h6, if_neg h7,
      if_pos h8]
    have hhi : c.toNat / 16 < 16 := by omega
    have hlo : c.toNat % 16 < 16 := by omega
    show parseStr ('\\' :: 'u' :: '0' :: '0' :: hexChar (c.toNat / 16) :: hexChar (c.toNat % 16) :: tail) = _
    rw [parseStr_escU, if_pos ⟨by decide, by decide, isHex_hexChar _, isHex_hexChar _⟩]
    have hval : hexVal '0' * 4096 + hexVal '0' * 256 +
        hexVal (hexChar (c.toNat / 16)) * 16 + hexVal (hexChar (c.toNat % 16)) = c.toNat := by
      rw [hexVal_hexChar _ hhi, hexVal_hexChar _ hlo,
        show hexVal '0' = 0 from by decide]
      omega
    rw [hval, Char.ofNat_toNat]
  · rw [escChar, if_neg h1, if_neg h2, if_neg h3, if_neg h4, if_neg h5, if_neg h6, if_neg h7,
      if_neg h8]
    simp only [List.cons_append, List.nil_append]
    exact parseStr_plain c tail h1 h2

theorem parseStr_escString (s rest : List Char) :
    parseStr (escString s ++ '"' :: rest) = some (s, rest) := by
  induction s with
  | nil =>
    show parseStr ('"' :: rest) = some ([], rest)
    rw [parseStr.eq_def]
    simp +decide
  | cons c cs ih =>
    have : escString (c :: cs) = escChar c ++ escString cs := by
      simp [escString]
    rw [this, List.append_assoc, parseStr_escChar, ih]
    rfl

mutual
/-- Fuel needed by `parseJson` to parse a serialized value. -/
def jsize : Json → Nat
  | .null => 1
  | .bool _ => 1
  | .num _ => 1
  | .str _ => 1
  | .obj ms => msize ms + 1
/-- Fuel needed by `parseMembers` to parse a serialized member list. -/
def msize : Members → Nat
  | .nil => 1
  | .cons _ v rest => jsize v + msize rest + 1
end

theorem jsize_pos (v : Json) : 1 ≤ jsize v := by
  cases v <;> simp [jsize]

theorem msize_pos (ms : Members) : 1 ≤ msize ms := by
  cases ms <;> simp [msize]

theorem digit_notKeyword (c : Char) (hc : isDigitChar c = true) :
    ¬c = 'n' ∧ ¬c = 't' ∧ ¬c = 'f' ∧ ¬c = '"' ∧ ¬c = '-' ∧ ¬c = '{' := by
  simp only [isDigitChar, decide_eq_true_eq] at hc
  refine ⟨?_, ?_, ?_, ?_, ?_, ?_⟩ <;> (intro h; subst h; exact absurd hc (by decide))

theorem parseJson_null (f : Nat) (rest : List Char) :
    parseJson (f + 1) ('n' :: 'u' :: 'l' :: 'l' :: rest) = some (.null, rest) := by
  rw [parseJson.eq_def]
  simp +decide

theorem parseJson_true (f : Nat) (rest : List Char) :
    parseJson (f + 1) ('t' :: 'r' :: 'u' :: 'e' :: rest) = some (.bool true, rest) := by
  rw [parseJson.eq_def]
  simp +decide

theorem parseJson_false (f : Nat) (rest : List Char) :
    parseJson (f + 1) ('f' :: 'a' :: 'l' :: 's' :: 'e' :: rest) = some (.bool false, rest) := by
  rw [parseJson.eq_def]
  simp +decide

theorem parseJson_str (f : Nat) (cs : List Char) :
    parseJson (f + 1) ('"' :: cs) = (parseStr cs).map fun p => (.str p.1, p.2) := by
  rw [parseJson.eq_def]
  simp +decide

theorem parseJson_neg (f : Nat) (cs : List Char) :
    parseJson (f + 1) ('-' :: cs) =
      (parseNatChars cs).map fun p => (.num (-(p.1 : Int)), p.2) := by
  rw [parseJson.eq_def]
  simp +decide

theorem parseJson_objEmpty (f : Nat) (rest : List Char) :
    parseJson (f + 1) ('{' :: '}' :: rest) = some (.obj .nil, rest) := by
  rw [parseJson.eq_def]
  simp +decide

theorem parseJson_objMembers (f : Nat) (cs2 : List Char) :
    parseJson (f + 1) ('{' :: '"' :: cs2) =
      (parseMembers f ('"' :: cs2)).map fun p => (.obj p.1, p.2) := by
  rw [parseJson.eq_def]
  simp +decide

theorem parseJson_digit (f : Nat) (c : Char) (cs : List Char) (hc : isDigitChar c = true) :
    parseJson (f + 1) (c :: cs) =
      (parseNatChars (c :: cs)).map fun p => (.num (p.1 : Int), p.2) := by
  obtain ⟨hn, ht, hf, hq, hm, hb⟩ := digit_notKeyword c hc
  rw [parseJson.eq_def]
  simp only [if_neg hn, if_neg ht, if_neg hf, if_neg hq, if_neg hm, if_neg hb, hc, if_true]

mutual
/-- Parsing the serialization of a JSON value consumes exactly that
serialization and returns the value, for any fuel of at least `jsize v` and
any continuation not starting with a digit. -/
theorem parse_jstr (v : Json) (fuel : Nat) (rest : List Char) (hfuel : jsize v ≤ fuel)
    (hrest : notDigitStart rest = true) :
    parseJson fuel (jstr v ++ rest) = some (v, rest) := by
  cases fuel with
  | zero => exact absurd hfuel (by have := jsize_pos v; omega)
  | succ f =>
    cases v with
    | null => exact parseJson_null f rest
    | bool b =>
      cases b with
      | true => exact parseJson_true f rest
      | false => exact parseJson_false f rest
    | str s =>
      rw [show jstr (.str s) ++ rest = '"' :: (escString s ++ '"' :: rest) from by
        simp [jstr]]
      rw [parseJson_str, parseStr_escString]
      rfl
    | num n =>
      by_cases hneg : n < 0
      · rw [show jstr (.num n) ++ rest = '-' :: (natChars n.natAbs ++ rest) from by
          simp [jstr, intChars, if_pos hneg]]
        rw [parseJson_neg, parseNatChars_natChars n.natAbs rest hrest,
          Option.map_some', show -((n.natAbs : Nat) : Int) = n from by omega]
      · have hform : jstr (.num n) ++ rest = natChars n.natAbs ++ rest := by
          simp [jstr, intChars, if_neg hneg]
        cases hn : natChars n.natAbs with
        | nil => exact absurd hn (natChars_ne_nil _)
        | cons c cs =>
          have hc : isDigitChar c = true := natChars_digits n.natAbs c (by rw [hn]; simp)
          rw [hform, hn, List.cons_append, parseJson_digit f c _ hc, ← List.cons_append, ← hn,
            parseNatChars_natChars n.natAbs rest hrest, Option.map_some',
            show ((n.natAbs : Nat) : Int) = n from by omega]
    | obj ms =>
      cases ms with
      | nil =>
        rw [show jstr (.obj .nil) ++ rest = '{' :: '}' :: rest from by simp [jstr, jstrMems]]
        exact parseJson_objEmpty f rest
      | cons k v2 ms2 =>
        have hsz : msize (.cons k v2 ms2) ≤ f := by
          rw [show jsize (.obj (.cons k v2 ms2)) = msize (.cons k v2 ms2) + 1 from by
            rw [jsize]] at hfuel
          omega
        obtain ⟨t, ht⟩ : ∃ t, jstrMems (.cons k v2 ms2) = '"' :: t := by
          cases ms2 <;> simp [jstrMems]
        have hin : jstr (.obj (.cons k v2 ms2)) ++ rest = '{' :: '"' :: (t ++ '}' :: rest) := by
          simp [jstr, ht]
        rw [hin, parseJson_objMembers f,
          show '"' :: (t ++ '}' :: rest) = jstrMems (.cons k v2 ms2) ++ '}' :: rest from by
            simp [ht],
          parse_mems k v2 ms2 f rest hsz]
        rfl
/-- Parsing the serialization of a non-empty object member list (followed by
the closing brace) returns that member list, for any fuel of at least its
`msize`. -/
theorem parse_mems (k : List Char) (v : Json) (ms2 : Members) (fuel : Nat) (rest : List Char)
    (hfuel : msize (.cons k v ms2) ≤ fuel) :
    parseMembers fuel (jstrMems (.cons k v ms2) ++ '}' :: rest) =
      some (.cons k v ms2, rest) := by
  cases fuel with
  | zero => exact absurd hfuel (by have := msize_pos (.cons k v ms2); omega)
  | succ f =>
    rw [show msize (.cons k v ms2) = jsize v + msize ms2 + 1 from by rw [msize]] at hfuel
    have hjv : jsize v ≤ f := by have := msize_pos ms2; omega
    cases ms2 with
    | nil =>
      have hin : jstrMems (.cons k v .nil) ++ '}' :: rest =
          '"' :: (escString k ++ '"' :: ':' :: (jstr v ++ '}' :: rest)) := by
        simp [jstrMems]
      rw [hin, parseMembers.eq_def]
      simp only [parseStr_escString, parse_jstr v f ('}' :: rest) hjv (by rfl)]
    | cons k2 v2 ms3 =>
      have hsz2 : msize (.cons k2 v2 ms3) ≤ f := by omega
      have hin : jstrMems (.cons k v (.cons k2 v2 ms3)) ++ '}' :: rest =
          '"' :: (escString k ++ '"' :: ':' ::
            (jstr v ++ ',' :: (jstrMems (.cons k2 v2 ms3) ++ '}' :: rest))) := by
        simp [jstrMems]
      rw [hin, parseMembers.eq_def]
      simp only [parseStr_escString,
        parse_jstr v f (',' :: (jstrMems (.cons k2 v2 ms3) ++ '}' :: rest)) hjv (by rfl),
        parse_mems k2 v2 ms3 f rest hsz2, Option.map_some']
end

mutual
/-- `parseJsonLine` supplies the line length plus one as fuel; that is always
enough. -/
theorem jsize_le (v : Json) : jsize v ≤ (jstr v).length + 1 := by
  cases v with
  | null => simp [jsize, jstr]
  | bool b => cases b <;> simp [jsize, jstr]
  | num n => simp [jsize]
  | str s => simp [jsize]
  | obj ms =>
    cases ms with
    | nil => simp [jsize, msize, jstr]
    | cons k v2 ms2 =>
      have h := msize_le (.cons k v2 ms2)
      rw [show jsize (.obj (.cons k v2 ms2)) = msize (.cons k v2 ms2) + 1 from by rw [jsize]]
      simp only [jstr, List.length_cons, List.length_append]
      omega
/-- Fuel bound for member lists. -/
theorem msize_le (ms : Members) : msize ms ≤ (jstrMems ms).length + 1 := by
  cases ms with
  | nil => simp [msize, jstrMems]
  | cons k v ms2 =>
    have hv := jsize_le v
    rw [show msize (.cons k v ms2) = jsize v + msize ms2 + 1 from by rw [msize]]
    cases ms2 with
    | nil =>
      simp only [jstrMems, msize, List.length_cons, List.length_append]
      omega
    | cons k2 v2 ms3 =>
      have hr := msize_le (.cons k2 v2 ms3)
      simp only [jstrMems, List.length_cons, List.length_append] at hr ⊢
      omega
end

theorem parseJsonLine_jstr (v : Json) : parseJsonLine (jstr v) = some v := by
  unfold parseJsonLine
  have h := parse_jstr v ((jstr v).length + 1) []
    (le_trans (jsize_le v) (by omega)) (by rfl)
  rw [List.append_nil] at h
  rw [h]

/-! ### Serialized lines contain no newline and no whitespace at their ends -/

theorem hexChar_ne_nl (d : Nat) : ¬hexChar d = '\n' := by
  unfold hexChar
  split <;> decide

theorem digit_ne_nl (c : Char) (hc : isDigitChar c = true) : ¬c = '\n' := by
  intro h
  subst h
  exact absurd hc (by decide)

theorem digit_not_ws (c : Char) (hc : isDigitChar c = true) : isWsChar c = false := by
  cases hw : isWsChar c with
  | false => rfl
  | true =>
    exfalso
    simp only [isWsChar, decide_eq_true_eq] at hw
    rcases hw with rfl | rfl | rfl | rfl <;> exact absurd hc (by decide)

theorem escChar_no_nl (c : Char) : ∀ x ∈ escChar c, ¬x = '\n' := by
  intro x hx
  unfold escChar at hx
  split_ifs at hx with h1 h2 h3 h4 h5 h6 h7 h8
  · exact (by decide : ∀ y ∈ ['\\', '"'], ¬y = '\n') x hx
  · exact (by decide : ∀ y ∈ ['\\', '\\'], ¬y = '\n') x hx
  · exact (by decide : ∀ y ∈ ['\\', 'n'], ¬y = '\n') x hx
  · exact (by decide : ∀ y ∈ ['\\', 'r'], ¬y = '\n') x hx
  · exact (by decide : ∀ y ∈ ['\\', 't'], ¬y = '\n') x hx
  · exact (by decide : ∀ y ∈ ['\\', 'b'], ¬y = '\n') x hx
  · exact (by decide : ∀ y ∈ ['\\', 'f'], ¬y = '\n') x hx
  · simp only [List.mem_cons, List.mem_singleton] at hx
    rcases hx with rfl | rfl | rfl | rfl | rfl | h
    · decide
    · decide
    · decide
    · decide
    · exact hexChar_ne_nl _
    · rcases h with rfl | h
      · exact hexChar_ne_nl _
      · simp at h
  · simp only [List.mem_singleton] at hx
    subst hx
    intro hEq
    subst hEq
    exact h8 (by decide)

theorem escString_no_nl (s : List Char) : ∀ x ∈ escString s, ¬x = '\n' := by
  intro x hx
  simp only [escString, List.mem_flatten, List.mem_map] at hx
  obtain ⟨l, ⟨c, _, rfl⟩, hxl⟩ := hx
  exact escChar_no_nl c x hxl

theorem natChars_no_nl (n : Nat) : ∀ x ∈ natChars n, ¬x = '\n' :=
  fun x hx => digit_ne_nl x (natChars_digits n x hx)

theorem intChars_no_nl (n : Int) : ∀ x ∈ intChars n, ¬x = '\n' := by
  intro x hx
  unfold intChars at hx
  split_ifs at hx
  · rcases List.mem_cons.mp hx with h | h
    · subst h; decide
    · exact natChars_no_nl _ x h
  · exact natChars_no_nl _ x hx

mutual
/-- A serialized JSON value contains no newline character. -/
theorem jstr_no_nl (v : Json) : ∀ x ∈ jstr v, ¬x = '\n' := by
  cases v with
  | null =>
    intro x hx
    rw [jstr] at hx
    exact (by decide : ∀ y ∈ ['n', 'u', 'l', 'l'], ¬y = '\n') x hx
  | bool b =>
    cases b with
    | true =>
      intro x hx
      rw [jstr] at hx
      exact (by decide : ∀ y ∈ ['t', 'r', 'u', 'e'], ¬y = '\n') x hx
    | false =>
      intro x hx
      rw [jstr] at hx
      exact (by decide : ∀ y ∈ ['f', 'a', 'l', 's', 'e'], ¬y = '\n') x hx
  | num n =>
    intro x hx
    rw [jstr] at hx
    exact intChars_no_nl n x hx
  | str s =>
    intro x hx
    rw [jstr] at hx
    rcases List.mem_cons.mp hx with h | h
    · subst h; decide
    · rcases List.mem_append.mp h with h2 | h2
      · exact escString_no_nl s x h2
      · simp at h2; subst h2; decide
  | obj ms =>
    intro x hx
    rw [jstr] at hx
    rcases List.mem_cons.mp hx with h | h
    · subst h; decide
    · rcases List.mem_append.mp h with h2 | h2
      · exact jstrMems_no_nl ms x h2
      · simp at h2; subst h2; decide
/-- A serialized member list contains no newline character. -/
theorem jstrMems_no_nl (ms : Members) : ∀ x ∈ jstrMems ms, ¬x = '\n' := by
  cases ms with
  | nil => intro x hx; rw [jstrMems] at hx; simp at hx
  | cons k v ms2 =>
    cases ms2 with
    | nil =>
      intro x hx
      rw [jstrMems] at hx
      rcases List.mem_cons.mp hx with h | h
      · subst h; decide
      · rcases List.mem_append.mp h with h2 | h2
        · exact escString_no_nl k x h2
        · rcases List.mem_cons.mp h2 with h3 | h3
          · subst h3; decide
          · rcases List.mem_cons.mp h3 with h4 | h4
            · subst h4; decide
            · exact jstr_no_nl v x h4
    | cons k2 v2 ms3 =>
      intro x hx
      rw [jstrMems] at hx
      rcases List.mem_append.mp hx with h | h
      · rcases List.mem_cons.mp h with h2 | h2
        · subst h2; decide
        · rcases List.mem_append.mp h2 with h3 | h3
          · exact escString_no_nl k x h3
          · rcases List.mem_cons.mp h3 with h4 | h4
            · subst h4; decide
            · rcases List.mem_cons.mp h4 with h5 | h5
              · subst h5; decide
              · exact jstr_no_nl v x h5
      · rcases List.mem_cons.mp h with h2 | h2
        · subst h2; decide
        · exact jstrMems_no_nl (.cons k2 v2 ms3) x h2
end

theorem natChars_head (n : Nat) :
    ∃ c cs, natChars n = c :: cs ∧ isDigitChar c = true := by
  cases hn : natChars n with
  | nil => exact absurd hn (natChars_ne_nil n)
  | cons c cs => exact ⟨c, cs, rfl, natChars_digits n c (by rw [hn]; simp)⟩

theorem natChars_last (n : Nat) :
    ∃ cs c, natChars n = cs ++ [c] ∧ isDigitChar c = true := by
  rw [natChars]
  split
  · exact ⟨[], digitChar n, rfl, digitChar_isDigit n⟩
  · exact ⟨natChars (n / 10), digitChar (n % 10), rfl, digitChar_isDigit _⟩

/-- A serialized JSON value starts with a non-whitespace character. -/
theorem jstr_head (v : Json) : ∃ c cs, jstr v = c :: cs ∧ isWsChar c = false := by
  cases v with
  | null => exact ⟨'n', _, by rw [jstr], by decide⟩
  | bool b => cases b with
    | true => exact ⟨'t', _, by rw [jstr], by decide⟩
    | false => exact ⟨'f', _, by rw [jstr], by decide⟩
  | num n =>
    rw [jstr, intChars]
    split
    · exact ⟨'-', _, rfl, by decide⟩
    · obtain ⟨c, cs, hn, hc⟩ := natChars_head n.natAbs
      exact ⟨c, cs, hn, digit_not_ws c hc⟩
  | str s => exact ⟨'"', escString s ++ ['"'], by rw [jstr]; rfl, by decide⟩
  | obj ms => exact ⟨'{', jstrMems ms ++ ['}'], by rw [jstr]; rfl, by decide⟩

/-- A serialized JSON value ends with a non-whitespace character. -/
theorem jstr_last (v : Json) : ∃ cs c, jstr v = cs ++ [c] ∧ isWsChar c = false := by
  cases v with
  | null => exact ⟨['n', 'u', 'l'], 'l', by rw [jstr]; rfl, by decide⟩
  | bool b => cases b with
    | true => exact ⟨['t', 'r', 'u'], 'e', by rw [jstr]; rfl, by decide⟩
    | false => exact ⟨['f', 'a', 'l', 's'], 'e', by rw [jstr]; rfl, by decide⟩
  | num n =>
    rw [jstr, intChars]
    obtain ⟨cs, c, hn, hc⟩ := natChars_last n.natAbs
    split
    · exact ⟨'-' :: cs, c, by rw [hn]; rfl, digit_not_ws c hc⟩
    · exact ⟨cs, c, hn, digit_not_ws c hc⟩
  | str s =>
    refine ⟨'"' :: escString s, '"', ?_, by decide⟩
    rw [jstr]
  | obj ms =>
    refine ⟨'{' :: jstrMems ms, '}', ?_, by decide⟩
    rw [jstr]

theorem jsTrim_of_ends (l : List Char) (c : Char) (cs : List Char) (ds : List Char) (d : Char)
    (h1 : l = c :: cs) (h2 : l = ds ++ [d])
    (hc : isWsChar c = false) (hd : isWsChar d = false) : jsTrim l = l := by
  unfold jsTrim
  rw [h1, List.dropWhile_cons, hc]
  simp only [Bool.false_eq_true, if_false]
  rw [← h1, h2]
  simp only [List.reverse_append, List.reverse_cons, List.reverse_nil, List.nil_append,
    List.cons_append, List.dropWhile_cons, hd]
  simp

/-- Trimming a serialized JSON value changes nothing. -/
theorem jsTrim_jstr (v : Json) : jsTrim (jstr v) = jstr v := by
  obtain ⟨c, cs, h1, hc⟩ := jstr_head v
  obtain ⟨ds, d, h2, hd⟩ := jstr_last v
  exact jsTrim_of_ends (jstr v) c cs ds d h1 h2 hc hd

theorem jstr_ne_nil (v : Json) : jstr v ≠ [] := by
  obtain ⟨c, cs, h1, _⟩ := jstr_head v
  rw [h1]
  simp

theorem splitNl_append (line rest : List Char) (h : ∀ c ∈ line, ¬c = '\n') :
    splitNl (line ++ '\n' :: rest) = line :: splitNl rest := by
  induction line with
  | nil => simp [splitNl]
  | cons c cs ih =>
    have hc : ¬c = '\n' := h c (by simp)
    rw [List.cons_append, splitNl, if_neg hc, ih (fun x hx => h x (by simp [hx]))]

theorem splitNl_joinLines (lines : List (List Char)) (h : ∀ l ∈ lines, ∀ c ∈ l, ¬c = '\n') :
    splitNl ((lines.map (fun l => l ++ ['\n'])).flatten) = lines ++ [[]] := by
  induction lines with
  | nil => rfl
  | cons l ls ih =>
    have hl : ∀ c ∈ l, ¬c = '\n' := h l (by simp)
    simp only [List.map_cons, List.flatten_cons, List.append_assoc, List.singleton_append]
    rw [splitNl_append l _ hl, ih (fun x hx => h x (by simp [hx]))]
    rfl

theorem mapM_parseJsonLine (vs : List Json) :
    ((vs.map jstr).mapM parseJsonLine) = some vs := by
  induction vs with
  | nil => rfl
  | cons v vs ih =>
    simp only [List.map_cons, List.mapM_cons, parseJsonLine_jstr, ih, Option.bind_some,
      Option.pure_def]
    rfl

/-- Generic NDJSON round trip at the JSON level: splitting, trimming,
filtering and parsing the concatenation of serialized lines recovers exactly
the serialized values. -/
theorem parseEventsNdjson_jstr (vs : List Json) :
    parseEventsNdjson (String.mk ((vs.map (fun v => jstr v ++ ['\n'])).flatten)) = some vs := by
  unfold parseEventsNdjson
  have hdata : (String.mk ((vs.map (fun v => jstr v ++ ['\n'])).flatten)).data =
      (((vs.map jstr).map (fun l => l ++ ['\n'])).flatten) := by
    rw [List.map_map]
    rfl
  rw [hdata, splitNl_joinLines (vs.map jstr)
    (by intro l hl c hc; simp only [List.mem_map] at hl; obtain ⟨v, _, rfl⟩ := hl
        exact jstr_no_nl v c hc)]
  have hmap : ((vs.map jstr) ++ [[]]).map jsTrim = (vs.map jstr) ++ [[]] := by
    rw [List.map_append]
    have hm : (vs.map jstr).map jsTrim = vs.map jstr := by
      rw [List.map_map]
      apply List.map_congr_left
      intro v _
      exact jsTrim_jstr v
    rw [hm]
    rfl
  rw [hmap]
  have hfilter : ((vs.map jstr) ++ [[]]).filter (fun l => l ≠ []) = vs.map jstr := by
    rw [List.filter_append]
    have h1 : (vs.map jstr).filter (fun l => l ≠ []) = vs.map jstr := by
      apply List.filter_eq_self.mpr
      intro l hl
      simp only [List.mem_map] at hl
      obtain ⟨v, _, rfl⟩ := hl
      simp [jstr_ne_nil v]
    rw [h1]
    simp
  rw [hfilter, mapM_parseJsonLine]

/-! ## The event model (`src/shared/types`, as described by the event
construction sites in `SessionManager.ts`) -/

/-- The kind-specific payload of a capture event (tagged union over `kind`).
Optional fields model TypeScript fields that may be `undefined` (and are then
omitted by `JSON.stringify`). -/
inductive EventData where
  | console (level text : String) (argsJson : Option String)
  | network_request (requestId method url : String) (headers : List (String × String))
      (postData : Option String) (resourceType : Option String)
  | network_response (requestId : String) (status : Int) (statusText : String)
      (headers : List (String × String)) (mimeType : Option String) (bodyPath : Option String)
  | network_fail (requestId : String) (url : Option String) (errorText : String) (canceled : Bool)
  | screenshot (screenshotId path : String) (width height : Int) (reason : String)
  | lifecycle (action : String) (reason : Option String)
deriving DecidableEq

/-- A capture event: the `BaseEvent` fields plus the kind-specific payload. -/
structure CaptureEvent where
  id : String
  sessionId : String
  tsMs : Int
  tRelMs : Int
  pageUrl : Option String
  data : EventData
deriving DecidableEq

/-- The `kind` discriminator string of an event. -/
def CaptureEvent.kind (e : CaptureEvent) : String :=
  match e.data with
  | .console .. => "console"
  | .network_request .. => "network_request"
  | .network_response .. => "network_response"
  | .network_fail .. => "network_fail"
  | .screenshot .. => "screenshot"
  | .lifecycle .. => "lifecycle"

/-- JSON string from a Lean string. -/
def strJ (s : String) : Json :=
  .str s.data

/-- Objects for the `headers` records. -/
def headersMems : List (String × String) → Members
  | [] => .nil
  | (k, v) :: rest => .cons k.data (strJ v) (headersMems rest)

/-- One optional member: omitted entirely when the field is `undefined`,
matching `JSON.stringify`. -/
def optMem (key : List Char) (v : Option Json) (rest : Members) : Members :=
  match v with
  | none => rest
  | some j => .cons key j rest

/-- The member list of the serialized payload fields, in the insertion order
of the object literals in `SessionManager.ts`. -/
def dataMems : EventData → Members
  | .console level text argsJson =>
    .cons "level".data (strJ level) (.cons "text".data (strJ text)
      (optMem "argsJson".data (argsJson.map strJ) .nil))
  | .network_request requestId method url headers postData resourceType =>
    .cons "requestId".data (strJ requestId) (.cons "method".data (strJ method)
      (.cons "url".data (strJ url) (.cons "headers".data (.obj (headersMems headers))
        (optMem "postData".data (postData.map strJ)
          (optMem "resourceType".data (resourceType.map strJ) .nil)))))
  | .network_response requestId status statusText headers mimeType bodyPath =>
    .cons "requestId".data (strJ requestId) (.cons "status".data (.num status)
      (.cons "statusText".data (strJ statusText)
        (.cons "headers".data (.obj (headersMems headers))
          (optMem "mimeType".data (mimeType.map strJ)
            (optMem "bodyPath".data (bodyPath.map strJ) .nil)))))
  | .network_fail requestId url errorText canceled =>
    .cons "requestId".data (strJ requestId)
      (optMem "url".data (url.map strJ)
        (.cons "errorText".data (strJ errorText)
          (.cons "canceled".data (.bool canceled) .nil)))
  | .screenshot screenshotId path width height reason =>
    .cons "screenshotId".data (strJ screenshotId) (.cons "path".data (strJ path)
      (.cons "width".data (.num width) (.cons "height".data (.num height)
        (.cons "reason".data (strJ reason) .nil))))
  | .lifecycle action reason =>
    .cons "action".data (strJ action) (optMem "reason".data (reason.map strJ) .nil)

/-- The JSON document `JSON.stringify` serializes for an event: the
`BaseEvent` fields in the order built by `createBaseEvent`, then the payload
fields. -/
def toJson (e : CaptureEvent) : Json :=
  .obj (.cons "id".data (strJ e.id) (.cons "sessionId".data (strJ e.sessionId)
    (.cons "kind".data (strJ e.kind) (.cons "tsMs".data (.num e.tsMs)
      (.cons "tRelMs".data (.num e.tRelMs)
        (optMem "pageUrl".data (e.pageUrl.map strJ) (dataMems e.data)))))))

/-- `serializeEventLine` from `src/main/session/utils.ts`:
`JSON.stringify(event)` followed by a newline. -/
def serializeEventLine (e : CaptureEvent) : String :=
  String.mk (jstr (toJson e) ++ ['\n'])

/-- Decode a `headers` object back to a record. -/
def headersOf : Members → Option (List (String × String))
  | .nil => some []
  | .cons k (.str v) rest => (headersOf rest).map fun hs => (String.mk k, String.mk v) :: hs
  | _ => none

/-- Decode up to two optional trailing string members (`key1` before
`key2`). -/
def opt2 (key1 key2 : List Char) : Members → Option (Option String × Option String)
  | .nil => some (none, none)
  | .cons k (.str v) .nil =>
    if k = key1 then some (some (String.mk v), none)
    else if k = key2 then some (none, some (String.mk v))
    else none
  | .cons k (.str v) (.cons k2 (.str v2) .nil) =>
    if k = key1 ∧ k2 = key2 then some (some (String.mk v), some (String.mk v2)) else none
  | _ => none

/-- Decode the payload member list for a given `kind`. -/
def dataOf (kind : List Char) (ms : Members) : Option EventData :=
  if kind = "console".data then
    match ms with
    | .cons k1 (.str level) (.cons k2 (.str text) rest) =>
      if k1 = "level".data ∧ k2 = "text".data then
        match rest with
        | .nil => some (.console (String.mk level) (String.mk text) none)
        | .cons k3 (.str aj) .nil =>
          if k3 = "argsJson".data then
            some (.console (String.mk level) (String.mk text) (some (String.mk aj)))
          else none
        | _ => none
      else none
    | _ => none
  else if kind = "network_request".data then
    match ms with
    | .cons k1 (.str rid) (.cons k2 (.str m) (.cons k3 (.str u)
        (.cons k4 (.obj hm) rest))) =>
      if k1 = "requestId".data ∧ k2 = "method".data ∧ k3 = "url".data ∧ k4 = "headers".data then
        match headersOf hm, opt2 "postData".data "resourceType".data rest with
        | some hs, some (pd, rt) =>
          some (.network_request (String.mk rid) (String.mk m) (String.mk u) hs pd rt)
        | _, _ => none
      else none
    | _ => none
  else if kind = "network_response".data then
    match ms with
    | .cons k1 (.str rid) (.cons k2 (.num st) (.cons k3 (.str stx)
        (.cons k4 (.obj hm) rest))) =>
      if k1 = "requestId".data ∧ k2 = "status".data ∧ k3 = "statusText".data ∧
          k4 = "headers".data then
        match headersOf hm, opt2 "mimeType".data "bodyPath".data rest with
        | some hs, some (mt, bp) =>
          some (.network_response (String.mk rid) st (String.mk stx) hs mt bp)
        | _, _ => none
      else none
    | _ => none
  else if kind = "network_fail".data then
    match ms with
    | .cons k1 (.str rid) (.cons k2 (.str u) (.cons k3 (.str et)
        (.cons k4 (.bool c) .nil))) =>
      if k1 = "requestId".data ∧ k2 = "url".data ∧ k3 = "errorText".data ∧
          k4 = "canceled".data then
        some (.network_fail (String.mk rid) (some (String.mk u)) (String.mk et) c)
      else none
    | .cons k1 (.str rid) (.cons k3 (.str et) (.cons k4 (.bool c) .nil)) =>
      if k1 = "requestId".data ∧ k3 = "errorText".data ∧ k4 = "canceled".data then
        some (.network_fail (String.mk rid) none (String.mk et) c)
      else none
    | _ => none
  else if kind = "screenshot".data then
    match ms with
    | .cons k1 (.str sid) (.cons k2 (.str p) (.cons k3 (.num w)
        (.cons k4 (.num h) (.cons k5 (.str r) .nil)))) =>
      if k1 = "screenshotId".data ∧ k2 = "path".data ∧ k3 = "width".data ∧
          k4 = "height".data ∧ k5 = "reason".data then
        some (.screenshot (String.mk sid) (String.mk p) w h (String.mk r))
      else none
    | _ => none
  else if kind = "lifecycle".data then
    match ms with
    | .cons k1 (.str a) .nil =>
      if k1 = "action".data then some (.lifecycle (String.mk a) none) else none
    | .cons k1 (.str a) (.cons k2 (.str r) .nil) =>
      if k1 = "action".data ∧ k2 = "reason".data then
        some (.lifecycle (String.mk a) (some (String.mk r)))
      else none
    | _ => none
  else none

/-- Decode a serialized event document back to an event (left inverse of
`toJson`, used to show the serialization is injective). -/
def fromJson : Json → Option CaptureEvent
  | .obj (.cons k1 (.str id) (.cons k2 (.str sid) (.cons k3 (.str kind)
      (.cons k4 (.num ts) (.cons k5 (.num trel) rest))))) =>
    if k1 = "id".data ∧ k2 = "sessionId".data ∧ k3 = "kind".data ∧ k4 = "tsMs".data ∧
        k5 = "tRelMs".data then
      match rest with
      | .cons k6 (.str pu) rest2 =>
        if k6 = "pageUrl".data then
          (dataOf kind rest2).map fun d =>
            ⟨String.mk id, String.mk sid, ts, trel, some (String.mk pu), d⟩
        else
          (dataOf kind rest).map fun d => ⟨String.mk id, String.mk sid, ts, trel, none, d⟩
      | _ =>
        (dataOf kind rest).map fun d => ⟨String.mk id, String.mk sid, ts, trel, none, d⟩
    else none
  | _ => none

theorem headersOf_headersMems (hs : List (String × String)) :
    headersOf (headersMems hs) = some hs := by
  induction hs with
  | nil => rfl
  | cons kv rest ih =>
    obtain ⟨k, v⟩ := kv
    simp [headersMems, headersOf, strJ, ih]

theorem fromJson_toJson (e : CaptureEvent) : fromJson (toJson e) = some e := by
  obtain ⟨id, sid, ts, trel, pu, data⟩ := e
  cases data with
  | console level text argsJson =>
    cases pu <;> cases argsJson <;>
      simp +decide [toJson, fromJson, dataMems, optMem, strJ, CaptureEvent.kind, dataOf]
  | network_request rid m u hs pd rt =>
    cases pu <;> cases pd <;> cases rt <;>
      simp +decide [toJson, fromJson, dataMems, optMem, strJ, CaptureEvent.kind, dataOf,
        headersOf_headersMems, opt2]
  | network_response rid st stx hs mt bp =>
    cases pu <;> cases mt <;> cases bp <;>
      simp +decide [toJson, fromJson, dataMems, optMem, strJ, CaptureEvent.kind, dataOf,
        headersOf_headersMems, opt2]
  | network_fail rid u et c =>
    cases pu <;> cases u <;>
      simp +decide [toJson, fromJson, dataMems, optMem, strJ, CaptureEvent.kind, dataOf]
  | screenshot sid2 p w h r =>
    cases pu <;>
      simp +decide [toJson, fromJson, dataMems, optMem, strJ, CaptureEvent.kind, dataOf]
  | lifecycle a r =>
    cases pu <;> cases r <;>
      simp +decide [toJson, fromJson, dataMems, optMem, strJ, CaptureEvent.kind, dataOf]

theorem toJson_injective (e1 e2 : CaptureEvent) (h : toJson e1 = toJson e2) : e1 = e2 := by
  have h1 := fromJson_toJson e1
  rw [h, fromJson_toJson e2] at h1
  exact (Option.some.inj h1).symm

theorem foldl_append_data (l : List String) :
    ∀ acc : String, (l.foldl (· ++ ·) acc).data = acc.data ++ (l.map String.data).flatten := by
  induction l with
  | nil => intro acc; simp
  | cons s rest ih =>
    intro acc
    simp only [List.foldl_cons, ih, String.data_append, List.map_cons, List.flatten_cons,
      List.append_assoc]

theorem join_data (l : List String) : (String.join l).data = (l.map String.data).flatten := by
  rw [String.join, foldl_append_data]
  rfl

theorem parseEventsNdjson_data_congr (s1 s2 : String) (h : s1.data = s2.data) :
    parseEventsNdjson s1 = parseEventsNdjson s2 := by
  unfold parseEventsNdjson
  rw [h]

theorem serializeEventLines_roundtrip (events : List CaptureEvent) :
    parseEventsNdjson (String.join (events.map serializeEventLine)) =
      some (events.map toJson) := by
  have hdata : (String.join (events.map serializeEventLine)).data =
      (String.mk (((events.map toJson).map (fun v => jstr v ++ ['\n'])).flatten)).data := by
    rw [join_data]
    show _ = ((events.map toJson).map fun v => jstr v ++ ['\n']).flatten
    rw [List.map_map, List.map_map]
    rfl
  rw [parseEventsNdjson_data_congr _ _ hdata, parseEventsNdjson_jstr]

/-- C3: full-export round trip.  Parsing the concatenation of
`serializeEventLine` applied to each event of any event list yields back the
serialized documents of exactly those events, in order; and the serialized
document determines the event uniquely (so the archive reproduces the same
multiset of events, with the same ids and field values). -/
theorem c3_full_export_roundtrip (events : List CaptureEvent) :
    parseEventsNdjson (String.join (events.map serializeEventLine)) =
      some (events.map toJson) ∧
    ∀ e1 e2 : CaptureEvent, toJson e1 = toJson e2 → e1 = e2 :=
  ⟨serializeEventLines_roundtrip events, toJson_injective⟩

/-- A concrete event used to witness the round-trip theorem. -/
def c3SampleEvent : CaptureEvent :=
  ⟨"evt-1", "session-1", 100, 0, none, .lifecycle "capture_started" none⟩

/-- Witness for C3 at a concrete one-event list. -/
theorem c3_full_export_roundtrip_witness :
    parseEventsNdjson (String.join ([c3SampleEvent].map serializeEventLine)) =
      some ([c3SampleEvent].map toJson) ∧ c3SampleEvent = c3SampleEvent :=
  ⟨(c3_full_export_roundtrip [c3SampleEvent]).1,
   (c3_full_export_roundtrip [c3SampleEvent]).2 c3SampleEvent c3SampleEvent rfl⟩

/-! ## Canonical event ordering (`sortEvents` in `SessionManager.ts:1293`,
`compareCaptureEvents` in the renderer view-model) -/

/-- ASCII case folding, modelling the case-insensitive (`sensitivity:
"base"`) part of `localeCompare`. -/
def lowerChar (c : Char) : Char :=
  if 65 ≤ c.toNat ∧ c.toNat ≤ 90 then Char.ofNat (c.toNat + 32) else c

/-- Collation tokens for the numeric-aware comparison: a maximal digit run
becomes `(0, value)` (compared by numeric value, as `numeric: true`
collation compares digit runs), every other character becomes `(1, code)`
after case folding. -/
def tokenizeAux : List Char → Option Nat → List (Nat × Nat)
  | [], none => []
  | [], some n => [(0, n)]
  | c :: rest, acc =>
    if isDigitChar c then tokenizeAux rest (some ((acc.getD 0) * 10 + (c.toNat - 48)))
    else
      match acc with
      | some n => (0, n) :: (1, (lowerChar c).toNat) :: tokenizeAux rest none
      | none => (1, (lowerChar c).toNat) :: tokenizeAux rest none

/-- Token list of a string under the `localeCompare` model. -/
def tokenize (s : List Char) : List (Nat × Nat) :=
  tokenizeAux s none

/-- Three-way comparison of naturals. -/
def cmpNat (m n : Nat) : Ordering :=
  if m < n then .lt else if n < m then .gt else .eq

/-- Comparison of collation tokens. -/
def tokCmp (a b : Nat × Nat) : Ordering :=
  match cmpNat a.1 b.1 with
  | .eq => cmpNat a.2 b.2
  | o => o

/-- Lexicographic comparison of token lists. -/
def lexCmp : List (Nat × Nat) → List (Nat × Nat) → Ordering
  | [], [] => .eq
  | [], _ :: _ => .lt
  | _ :: _, [] => .gt
  | a :: as, b :: bs =>
    match tokCmp a b with
    | .eq => lexCmp as bs
    | o => o

/-- Sign of an `Ordering` as the integer result of `localeCompare`. -/
def ordToInt : Ordering → Int
  | .lt => -1
  | .eq => 0
  | .gt => 1

/-- Model of `a.localeCompare(b, undefined, { numeric: true, sensitivity:
"base" })`: numeric-aware, case-insensitive lexicographic comparison. -/
def localeCompareNumericBase (s t : String) : Int :=
  ordToInt (lexCmp (tokenize s.data) (tokenize t.data))

/-- The canonical comparator: `tsMs` ascending, then `tRelMs` ascending,
then the numeric-aware id comparison. -/
def compareCaptureEvents (a b : CaptureEvent) : Int :=
  if a.tsMs ≠ b.tsMs then a.tsMs - b.tsMs
  else if a.tRelMs ≠ b.tRelMs then a.tRelMs - b.tRelMs
  else localeCompareNumericBase a.id b.id

/-- `sortEvents`: a stable sort by the canonical comparator
(`Array.prototype.sort` is stable, so the stable insertion sort computes the
same list). -/
def sortEvents (events : List CaptureEvent) : List CaptureEvent :=
  events.insertionSort fun a b => compareCaptureEvents a b ≤ 0

theorem cmpNat_eq_iff (m n : Nat) : cmpNat m n = .eq ↔ m = n := by
  unfold cmpNat
  split_ifs <;> simp <;> omega

theorem cmpNat_lt_iff (m n : Nat) : cmpNat m n = .lt ↔ m < n := by
  unfold cmpNat
  split_ifs <;> simp <;> omega

theorem cmpNat_gt_iff (m n : Nat) : cmpNat m n = .gt ↔ n < m := by
  unfold cmpNat
  split_ifs <;> simp <;> omega

theorem tokCmp_eq_iff (a b : Nat × Nat) : tokCmp a b = .eq ↔ a = b := by
  unfold tokCmp
  cases h1 : cmpNat a.1 b.1 with
  | lt =>
    rw [cmpNat_lt_iff] at h1
    exact iff_of_false (by simp) (fun h => by rw [h] at h1; omega)
  | gt =>
    rw [cmpNat_gt_iff] at h1
    exact iff_of_false (by simp) (fun h => by rw [h] at h1; omega)
  | eq =>
    rw [cmpNat_eq_iff] at h1
    rw [cmpNat_eq_iff]
    constructor
    · intro h
      exact Prod.ext h1 h
    · intro h
      rw [h]

theorem tokCmp_lt_iff (a b : Nat × Nat) :
    tokCmp a b = .lt ↔ (a.1 < b.1 ∨ (a.1 = b.1 ∧ a.2 < b.2)) := by
  unfold tokCmp
  cases h1 : cmpNat a.1 b.1 with
  | lt => rw [cmpNat_lt_iff] at h1; simp; omega
  | gt => rw [cmpNat_gt_iff] at h1; simp; omega
  | eq => rw [cmpNat_eq_iff] at h1; rw [cmpNat_lt_iff]; omega

theorem tokCmp_gt_iff (a b : Nat × Nat) :
    tokCmp a b = .gt ↔ (b.1 < a.1 ∨ (b.1 = a.1 ∧ b.2 < a.2)) := by
  unfold tokCmp
  cases h1 : cmpNat a.1 b.1 with
  | lt => rw [cmpNat_lt_iff] at h1; simp; omega
  | gt => rw [cmpNat_gt_iff] at h1; simp; omega
  | eq => rw [cmpNat_eq_iff] at h1; rw [cmpNat_gt_iff]; omega

theorem lexCmp_eq_iff (x y : List (Nat × Nat)) : lexCmp x y = .eq ↔ x = y := by
  induction x generalizing y with
  | nil => cases y <;> simp [lexCmp]
  | cons a as ih =>
    cases y with
    | nil => simp [lexCmp]
    | cons b bs =>
      unfold lexCmp
      cases h1 : tokCmp a b with
      | lt =>
        have hne : ¬a = b := by
          intro h
          rw [h, (tokCmp_eq_iff b b).mpr rfl] at h1
          exact absurd h1 (by simp)
        simp [hne]
      | gt =>
        have hne : ¬a = b := by
          intro h
          rw [h, (tokCmp_eq_iff b b).mpr rfl] at h1
          exact absurd h1 (by simp)
        simp [hne]
      | eq =>
        rw [tokCmp_eq_iff] at h1
        simp [h1, ih]

theorem lexCmp_nGt_trans (x y z : List (Nat × Nat)) (h1 : lexCmp x y ≠ .gt)
    (h2 : lexCmp y z ≠ .gt) : lexCmp x z ≠ .gt := by
  induction x generalizing y z with
  | nil => cases z <;> simp [lexCmp]
  | cons a as ih =>
    cases y with
    | nil => rw [show lexCmp (a :: as) [] = .gt from rfl] at h1; exact absurd rfl h1
    | cons b bs =>
      cases z with
      | nil => rw [show lexCmp (b :: bs) [] = .gt from rfl] at h2; exact absurd rfl h2
      | cons c cs =>
        unfold lexCmp at h1 h2 ⊢
        cases hab : tokCmp a b with
        | gt => rw [hab] at h1; exact absurd rfl h1
        | eq =>
          rw [hab] at h1
          rw [tokCmp_eq_iff] at hab
          subst hab
          cases hac : tokCmp a c with
          | gt => rw [hac] at h2; exact absurd rfl h2
          | lt => simp
          | eq =>
            rw [hac] at h2
            exact ih bs cs h1 h2
        | lt =>
          cases hbc : tokCmp b c with
          | gt => rw [hbc] at h2; exact absurd rfl h2
          | eq =>
            rw [tokCmp_eq_iff] at hbc
            subst hbc
            rw [hab]
            simp
          | lt =>
            have hac : tokCmp a c = .lt := by
              rw [tokCmp_lt_iff] at hab hbc ⊢
              omega
            rw [hac]
            simp

theorem lexCmp_total (x y : List (Nat × Nat)) : lexCmp x y ≠ .gt ∨ lexCmp y x ≠ .gt := by
  induction x generalizing y with
  | nil => left; cases y <;> simp [lexCmp]
  | cons a as ih =>
    cases y with
    | nil => right; simp [lexCmp]
    | cons b bs =>
      unfold lexCmp
      cases hab : tokCmp a b with
      | lt => left; simp
      | eq =>
        rw [tokCmp_eq_iff] at hab
        subst hab
        rw [(tokCmp_eq_iff a a).mpr rfl]
        exact ih bs
      | gt =>
        right
        have hba : tokCmp b a = .lt := by
          rw [tokCmp_gt_iff] at hab
          rw [tokCmp_lt_iff]
          omega
        rw [hba]
        simp

theorem ordToInt_le_zero (o : Ordering) : ordToInt o ≤ 0 ↔ o ≠ .gt := by
  cases o <;> simp [ordToInt]

theorem ordToInt_eq_zero (o : Ordering) : ordToInt o = 0 ↔ o = .eq := by
  cases o <;> simp [ordToInt]

theorem compare_le_iff (a b : CaptureEvent) : compareCaptureEvents a b ≤ 0 ↔
    (a.tsMs < b.tsMs ∨ (a.tsMs = b.tsMs ∧ (a.tRelMs < b.tRelMs ∨ (a.tRelMs = b.tRelMs ∧
      lexCmp (tokenize a.id.data) (tokenize b.id.data) ≠ .gt)))) := by
  unfold compareCaptureEvents localeCompareNumericBase
  split_ifs with h1 h2
  · constructor
    · intro h
      left
      omega
    · rintro (h | ⟨h, _⟩)
      · omega
      · exact absurd h h1
  · constructor
    · intro h
      right
      refine ⟨by omega, ?_⟩
      left
      omega
    · rintro (h | ⟨h, hrel | ⟨hrel, _⟩⟩)
      · omega
      · omega
      · omega
  · rw [ordToInt_le_zero]
    constructor
    · intro h
      right
      exact ⟨by omega, Or.inr ⟨by omega, h⟩⟩
    · rintro (h | ⟨h, hrel | ⟨hrel, hid⟩⟩)
      · omega
      · omega
      · exact hid

theorem compare_eq_zero_iff (a b : CaptureEvent) : compareCaptureEvents a b = 0 ↔
    (a.tsMs = b.tsMs ∧ a.tRelMs = b.tRelMs ∧
      tokenize a.id.data = tokenize b.id.data) := by
  unfold compareCaptureEvents localeCompareNumericBase
  split_ifs with h1 h2
  · constructor
    · intro h
      exact absurd (by omega) h1
    · rintro ⟨h, _⟩
      exact absurd h h1
  · constructor
    · intro h
      exact absurd (by omega) h2
    · rintro ⟨_, h, _⟩
      exact absurd h h2
  · rw [ordToInt_eq_zero, lexCmp_eq_iff]
    constructor
    · intro h
      exact ⟨by omega, by omega, h⟩
    · rintro ⟨_, _, h⟩
      exact h

theorem compare_total (a b : CaptureEvent) :
    compareCaptureEvents a b ≤ 0 ∨ compareCaptureEvents b a ≤ 0 := by
  rw [compare_le_iff, compare_le_iff]
  rcases lexCmp_total (tokenize a.id.data) (tokenize b.id.data) with h | h
  · by_cases hts : a.tsMs = b.tsMs
    · by_cases hrel : a.tRelMs = b.tRelMs
      · left
        exact Or.inr ⟨hts, Or.inr ⟨hrel, h⟩⟩
      · rcases lt_or_gt_of_ne hrel with hlt | hgt
        · left; exact Or.inr ⟨hts, Or.inl hlt⟩
        · right; exact Or.inr ⟨hts.symm, Or.inl hgt⟩
    · rcases lt_or_gt_of_ne hts with hlt | hgt
      · left; exact Or.inl hlt
      · right; exact Or.inl hgt
  · by_cases hts : a.tsMs = b.tsMs
    · by_cases hrel : a.tRelMs = b.tRelMs
      · right
        exact Or.inr ⟨hts.symm, Or.inr ⟨hrel.symm, h⟩⟩
      · rcases lt_or_gt_of_ne hrel with hlt | hgt
        · left; exact Or.inr ⟨hts, Or.inl hlt⟩
        · right; exact Or.inr ⟨hts.symm, Or.inl hgt⟩
    · rcases lt_or_gt_of_ne hts with hlt | hgt
      · left; exact Or.inl hlt
      · right; exact Or.inl hgt

theorem compare_trans (a b c : CaptureEvent) (h1 : compareCaptureEvents a b ≤ 0)
    (h2 : compareCaptureEvents b c ≤ 0) : compareCaptureEvents a c ≤ 0 := by
  rw [compare_le_iff] at h1 h2 ⊢
  rcases h1 with h1 | ⟨hts1, h1⟩
  · rcases h2 with h2 | ⟨hts2, _⟩
    · left; omega
    · left; omega
  · rcases h2 with h2 | ⟨hts2, h2⟩
    · left; omega
    · right
      refine ⟨by omega, ?_⟩
      rcases h1 with h1 | ⟨hrel1, hid1⟩
      · rcases h2 with h2 | ⟨hrel2, _⟩
        · left; omega
        · left; omega
      · rcases h2 with h2 | ⟨hrel2, hid2⟩
        · left; omega
        · right
          exact ⟨by omega, lexCmp_nGt_trans _ _ _ hid1 hid2⟩

instance : IsTotal CaptureEvent (fun a b => compareCaptureEvents a b ≤ 0) :=
  ⟨compare_total⟩

instance : IsTrans CaptureEvent (fun a b => compareCaptureEvents a b ≤ 0) :=
  ⟨compare_trans⟩

theorem sortEvents_sorted (l : List CaptureEvent) :
    (sortEvents l).Sorted fun a b => compareCaptureEvents a b ≤ 0 :=
  List.sorted_insertionSort _ l

theorem sortEvents_perm (l : List CaptureEvent) : (sortEvents l).Perm l :=
  List.perm_insertionSort _ l

/-- C2 (amended): the canonical comparison (`tsMs`, then `tRelMs`, then the
numeric-aware case-insensitive id comparison) is a total preorder — total
and transitive — and comparing equal forces equal timestamps and equal
collation keys of the ids (though not equal ids, see the counterexample);
applying the canonical sort to an already-sorted list returns the same
list, so sorting is idempotent. -/
theorem c2_canonical_order :
    (∀ a b : CaptureEvent, compareCaptureEvents a b ≤ 0 ∨ compareCaptureEvents b a ≤ 0) ∧
    (∀ a b c : CaptureEvent, compareCaptureEvents a b ≤ 0 → compareCaptureEvents b c ≤ 0 →
      compareCaptureEvents a c ≤ 0) ∧
    (∀ a b : CaptureEvent, compareCaptureEvents a b = 0 →
      a.tsMs = b.tsMs ∧ a.tRelMs = b.tRelMs ∧ tokenize a.id.data = tokenize b.id.data) ∧
    (∀ l : List CaptureEvent, l.Sorted (fun a b => compareCaptureEvents a b ≤ 0) →
      sortEvents l = l) ∧
    (∀ l : List CaptureEvent, sortEvents (sortEvents l) = sortEvents l) := by
  refine ⟨compare_total, compare_trans, ?_, ?_, ?_⟩
  · intro a b h
    exact (compare_eq_zero_iff a b).mp h
  · intro l h
    exact h.insertionSort_eq
  · intro l
    exact (sortEvents_sorted l).insertionSort_eq

/-- Event with id `"1"`. -/
def c2EventA : CaptureEvent :=
  ⟨"1", "s", 100, 50, none, .lifecycle "capture_started" none⟩

/-- Event with id `"01"`. -/
def c2EventB : CaptureEvent :=
  ⟨"01", "s", 100, 50, none, .lifecycle "capture_started" none⟩

/-- C2 counterexample: two distinct events, equal in `tsMs` and `tRelMs`,
whose ids `"1"` and `"01"` compare equal under the numeric-aware comparison
(`"1".localeCompare("01", undefined, { numeric: true, sensitivity: "base"
}) === 0`), so the claimed antisymmetry for distinct events fails: the
canonical comparison does not strictly order these two events. -/
theorem c2_counterexample :
    compareCaptureEvents c2EventA c2EventB = 0 ∧
    compareCaptureEvents c2EventB c2EventA = 0 ∧ c2EventA ≠ c2EventB := by
  refine ⟨by decide, by decide, by decide⟩

/-- Witness for C2 at concrete inputs: totality, transitivity, the
equal-keys consequence and sorted-idempotence discharged on concrete
events and a concrete sorted list. -/
theorem c2_canonical_order_witness :
    (compareCaptureEvents c2EventA c2EventA ≤ 0 ∨ compareCaptureEvents c2EventA c2EventA ≤ 0) ∧
    (c2EventA.tsMs = c2EventB.tsMs ∧ c2EventA.tRelMs = c2EventB.tRelMs ∧
      tokenize c2EventA.id.data = tokenize c2EventB.id.data) ∧
    sortEvents [c2EventA, c2EventB] = [c2EventA, c2EventB] :=
  ⟨c2_canonical_order.1 c2EventA c2EventA,
   c2_canonical_order.2.2.1 c2EventA c2EventB (by decide),
   c2_canonical_order.2.2.2.1 [c2EventA, c2EventB] (by
     constructor
     · intro b hb
       simp only [List.mem_singleton] at hb
       subst hb
       decide
     · simp)⟩

/-! ## Relative timestamps (`eventFactory.ts`, `getTimelineCaptureStartAtMs`
and `consumePausedDuration` in `SessionManager.ts`) -/

/-- The options record taken by `createBaseEvent`; `nowMs` stands for the
`Date.now()` value used when the caller passes none. -/
structure BaseEventOptions where
  sessionId : String
  captureStartAtMs : Int
  kind : String
  pageUrl : Option String
  nowMs : Int
deriving DecidableEq

/-- The `BaseEvent` fields produced by `createBaseEvent`. -/
structure BaseEvent where
  id : String
  sessionId : String
  kind : String
  tsMs : Int
  tRelMs : Int
  pageUrl : Option String
deriving DecidableEq

/-- `createBaseEvent` from `eventFactory.ts`; `id` is the freshly drawn
UUID. -/
def createBaseEvent (id : String) (options : BaseEventOptions) : BaseEvent :=
  { id := id
    sessionId := options.sessionId
    kind := options.kind
    tsMs := options.nowMs
    tRelMs := max 0 (options.nowMs - options.captureStartAtMs)
    pageUrl := options.pageUrl }

/-- `getTimelineCaptureStartAtMs` (`SessionManager.ts:1305-1310`): `null`
when capture has not started (the JavaScript `!captureStartedAt` check is
also true for the timestamp `0`), otherwise
`captureStartedAt + pausedAccumulatedMs`. -/
def getTimelineCaptureStartAtMs (captureStartedAt : Option Int)
    (pausedAccumulatedMs : Int) : Option Int :=
  match captureStartedAt with
  | none => none
  | some t => if t = 0 then none else some (t + pausedAccumulatedMs)

/-- `consumePausedDuration` (`SessionManager.ts:1312-1318`): folds the
elapsed pause into the accumulator and clears the pause start; returns the
new `(pausedStartedAtMs, pausedAccumulatedMs)` pair. -/
def consumePausedDuration (pausedStartedAtMs : Option Int)
    (pausedAccumulatedMs nowMs : Int) : Option Int × Int :=
  match pausedStartedAtMs with
  | none => (pausedStartedAtMs, pausedAccumulatedMs)
  | some t => (none, pausedAccumulatedMs + max 0 (nowMs - t))

/-- C1: every event is created against the timeline origin
`captureStartedAt + pausedAccumulatedMs`, so its relative timestamp is
`max(0, tsMs - (captureStartedAt + pausedAccumulatedMs))`; with no pauses an
event `D` wall-milliseconds after capture start has `tRelMs = D`; and
folding a pause of `p` milliseconds shifts the `tRelMs` of later events down
by exactly `p`. -/
theorem c1_relative_timestamp (id sid kind : String) (pageUrl : Option String)
    (start paused ts : Int) (D : Nat) (hstart : start ≠ 0) :
    getTimelineCaptureStartAtMs (some start) paused = some (start + paused) ∧
    (createBaseEvent id ⟨sid, start + paused, kind, pageUrl, ts⟩).tRelMs =
      max 0 (ts - (start + paused)) ∧
    (createBaseEvent id ⟨sid, start + 0, kind, pageUrl, start + (D : Int)⟩).tRelMs = D ∧
    (0 ≤ paused → start + paused ≤ ts →
      (createBaseEvent id ⟨sid, start + paused, kind, pageUrl, ts⟩).tRelMs =
        (createBaseEvent id ⟨sid, start, kind, pageUrl, ts⟩).tRelMs - paused) := by
  refine ⟨?_, rfl, ?_, ?_⟩
  · simp [getTimelineCaptureStartAtMs, hstart]
  · simp [createBaseEvent]
  · intro hp hts
    simp only [createBaseEvent]
    omega

/-- Witness for C1 at the spec's pause scenario: capture start `1000`,
accumulated pause `3000`, event at wall time `9000` has `tRelMs = 5000`. -/
theorem c1_relative_timestamp_witness :
    getTimelineCaptureStartAtMs (some 1000) 3000 = some (1000 + 3000) ∧
    (createBaseEvent "e" ⟨"s", 1000 + 3000, "console", none, 9000⟩).tRelMs =
      max 0 (9000 - (1000 + 3000)) ∧
    (createBaseEvent "e" ⟨"s", 1000 + 0, "console", none, 1000 + ((450 : Nat) : Int)⟩).tRelMs =
      450 ∧
    (createBaseEvent "e" ⟨"s", 1000 + 3000, "console", none, 9000⟩).tRelMs =
      (createBaseEvent "e" ⟨"s", 1000, "console", none, 9000⟩).tRelMs - 3000 :=
  have h := c1_relative_timestamp "e" "s" "console" none 1000 3000 9000 450 (by decide)
  ⟨h.1, h.2.1, h.2.2.1, h.2.2.2 (by decide) (by decide)⟩

/-! ## Controller state (`SessionManager` fields) and its operations

Fields not needed by any verified claim (browser/page/CDP handles, timer
handles, file-system paths, `eventById` / `screenshotPathById` lookup maps,
`lastError`, `sessionFileName`, `createdAt`) are omitted.  JavaScript `Map`s
are modelled as association lists: lookup takes the first match, `set`
prepends after removing the key, `delete` removes the key. -/

/-- An entry of the `responseByRequestId` pending map. -/
structure PendingResponse where
  requestId : String
  url : String
  status : Int
  statusText : String
  headers : List (String × String)
  mimeType : Option String
deriving DecidableEq

/-- `Map.prototype.get`. -/
def mapGet {α : Type} (m : List (String × α)) (k : String) : Option α :=
  match m with
  | [] => none
  | (k2, v) :: rest => if k2 = k then some v else mapGet rest k

/-- `Map.prototype.delete`. -/
def mapDelete {α : Type} (m : List (String × α)) (k : String) : List (String × α) :=
  m.filter fun kv => kv.1 ≠ k

/-- `Map.prototype.set`. -/
def mapSet {α : Type} (m : List (String × α)) (k : String) (v : α) : List (String × α) :=
  (k, v) :: mapDelete m k

/-- The mutable controller state of `SessionManager`. -/
structure MgrState where
  statusState : String
  sessionId : Option String
  captureStartedAt : Option Int
  captureEndedAt : Option Int
  countsEvents : Nat
  countsScreenshots : Nat
  countsNetworkRequests : Nat
  events : List CaptureEvent
  lastScreenshotEvent : Option CaptureEvent
  screenshotRunActive : Bool
  responseByRequestId : List (String × PendingResponse)
  requestUrlById : List (String × String)
  pausedStartedAtMs : Option Int
  pausedAccumulatedMs : Int
  streamOpen : Bool
  streamLines : List String
  containsBodies : Bool
deriving DecidableEq

/-- Assemble a full event from its base fields and payload. -/
def mkEvent (base : BaseEvent) (data : EventData) : CaptureEvent :=
  ⟨base.id, base.sessionId, base.tsMs, base.tRelMs, base.pageUrl, data⟩

/-- `appendEvent` (`SessionManager.ts:568-585`): push the event, bump the
per-kind counters, remember the last screenshot event, and mirror the
serialized line to the durable stream when it is open. -/
def appendEvent (st : MgrState) (e : CaptureEvent) : MgrState :=
  { st with
    events := st.events ++ [e]
    countsEvents := st.countsEvents + 1
    countsScreenshots := st.countsScreenshots + (if e.kind = "screenshot" then 1 else 0)
    lastScreenshotEvent := if e.kind = "screenshot" then some e else st.lastScreenshotEvent
    countsNetworkRequests :=
      st.countsNetworkRequests + (if e.kind = "network_request" then 1 else 0)
    streamLines :=
      if st.streamOpen then st.streamLines ++ [serializeEventLine e] else st.streamLines }

/-- `emitLifecycleEvent` (`SessionManager.ts:548-566`); `freshId`, `nowMs`
and `pageUrl` model the UUID draw, `Date.now()` and `page.url()`. -/
def emitLifecycleEvent (st : MgrState) (action : String) (reason : Option String)
    (freshId : String) (nowMs : Int) (pageUrl : Option String) : MgrState :=
  match st.sessionId, getTimelineCaptureStartAtMs st.captureStartedAt st.pausedAccumulatedMs with
  | some sid, some startAt =>
    appendEvent st (mkEvent (createBaseEvent freshId ⟨sid, startAt, "lifecycle", pageUrl, nowMs⟩)
      (.lifecycle action reason))
  | _, _ => st

/-- `sanitizeFileFragment` from `utils.ts`: replace every character outside
`[a-zA-Z0-9_.-]` with an underscore. -/
def sanitizeFileFragment (value : String) : String :=
  String.mk (value.data.map fun c =>
    if (65 ≤ c.toNat ∧ c.toNat ≤ 90) ∨ (97 ≤ c.toNat ∧ c.toNat ≤ 122) ∨
        (48 ≤ c.toNat ∧ c.toNat ≤ 57) ∨ c = '_' ∨ c = '.' ∨ c = '-' then c else '_')

/-- `handleConsoleMessage` (`SessionManager.ts:587-620`), without the
screenshot trigger that may follow the append. -/
def handleConsoleMessage (st : MgrState) (level text : String) (argsJson : Option String)
    (freshId : String) (nowMs : Int) (pageUrl : Option String) : MgrState :=
  match st.sessionId, getTimelineCaptureStartAtMs st.captureStartedAt st.pausedAccumulatedMs with
  | some sid, some startAt =>
    if st.statusState = "capturing" then
      appendEvent st (mkEvent (createBaseEvent freshId ⟨sid, startAt, "console", pageUrl, nowMs⟩)
        (.console level text argsJson))
    else st
  | _, _ => st

/-- `handleRequestWillBeSent` (`SessionManager.ts:622-656`), without the
screenshot trigger that may follow the append. -/
def handleRequestWillBeSent (st : MgrState) (requestId method url : String)
    (headers : List (String × String)) (postData resourceType : Option String)
    (freshId : String) (nowMs : Int) (pageUrl : Option String) : MgrState :=
  match st.sessionId, getTimelineCaptureStartAtMs st.captureStartedAt st.pausedAccumulatedMs with
  | some sid, some startAt =>
    if st.statusState = "capturing" then
      appendEvent { st with requestUrlById := mapSet st.requestUrlById requestId url }
        (mkEvent (createBaseEvent freshId ⟨sid, startAt, "network_request", pageUrl, nowMs⟩)
          (.network_request requestId method url headers postData resourceType))
    else st
  | _, _ => st

/-- `handleResponseReceived` (`SessionManager.ts:658-679`): while capturing,
stash the response metadata in the pending map; never append an event. -/
def handleResponseReceived (st : MgrState) (requestId url : String) (status : Int)
    (statusText : String) (headers : List (String × String)) (mimeType : Option String) :
    MgrState :=
  if st.statusState = "capturing" then
    { st with responseByRequestId := (mapSet st.responseByRequestId requestId
        ⟨requestId, url, status, statusText, headers, mimeType⟩) }
  else st

/-- `handleLoadingFinished` (`SessionManager.ts:681-734`).  `bodyFetched`
models whether the best-effort `Network.getResponseBody` call returned a
body (on failure the event is emitted without a body path), and `nameNowMs`
the `Date.now()` used in the body file name. -/
def handleLoadingFinished (st : MgrState) (requestId : String) (bodyFetched : Bool)
    (nameNowMs : Int) (freshId : String) (nowMs : Int) (pageUrl : Option String) : MgrState :=
  match st.sessionId, getTimelineCaptureStartAtMs st.captureStartedAt st.pausedAccumulatedMs with
  | some sid, some startAt =>
    if st.statusState = "capturing" then
      match mapGet st.responseByRequestId requestId with
      | none => st
      | some response =>
        let bodyPath : Option String :=
          if bodyFetched then
            some ("network/bodies/" ++ sanitizeFileFragment requestId ++ "-" ++
              toString nameNowMs ++ ".bin")
          else none
        let st2 := { st with containsBodies := st.containsBodies || bodyFetched }
        let st3 := appendEvent st2
          (mkEvent (createBaseEvent freshId ⟨sid, startAt, "network_response", pageUrl, nowMs⟩)
            (.network_response response.requestId response.status response.statusText
              response.headers response.mimeType bodyPath))
        { st3 with responseByRequestId := mapDelete st3.responseByRequestId requestId }
    else st
  | _, _ => st

/-- `handleLoadingFailed` (`SessionManager.ts:736-767`), without the
screenshot trigger that may follow the append. -/
def handleLoadingFailed (st : MgrState) (requestId errorText : String) (canceled : Bool)
    (freshId : String) (nowMs : Int) (pageUrl : Option String) : MgrState :=
  match st.sessionId, getTimelineCaptureStartAtMs st.captureStartedAt st.pausedAccumulatedMs with
  | some sid, some startAt =>
    if st.statusState = "capturing" then
      let st2 := appendEvent st
        (mkEvent (createBaseEvent freshId ⟨sid, startAt, "network_fail", pageUrl, nowMs⟩)
          (.network_fail requestId (mapGet st.requestUrlById requestId) errorText canceled))
      { st2 with
        responseByRequestId := mapDelete st2.responseByRequestId requestId
        requestUrlById := mapDelete st2.requestUrlById requestId }
    else st
  | _, _ => st

/-- `appendFallbackScreenshotFromLast` (`SessionManager.ts:890-916`): while
capturing and with a last screenshot reference, append a new screenshot
event with a fresh id and current timestamps that reuses the last
screenshot's path, width and height.  (The last branch is unreachable: the
last-screenshot reference always holds a screenshot event.) -/
def appendFallbackScreenshotFromLast (st : MgrState) (reason : String)
    (freshId screenshotId : String) (nowMs : Int) (pageUrlNow : Option String) : MgrState :=
  if st.statusState = "capturing" then
    match st.lastScreenshotEvent, st.sessionId with
    | some lastEv, some sid =>
      match getTimelineCaptureStartAtMs st.captureStartedAt st.pausedAccumulatedMs with
      | none => st
      | some startAt =>
        match lastEv.data with
        | .screenshot _ path width height _ =>
          appendEvent st (mkEvent (createBaseEvent freshId
              ⟨sid, startAt, "screenshot",
                (match pageUrlNow with | some u => some u | none => lastEv.pageUrl), nowMs⟩)
            (.screenshot screenshotId path width height reason))
        | _ => st
    | _, _ => st
  else st

/-- The first branch of `captureScreenshot` (`SessionManager.ts:772-775`):
a `"timer"` request while `screenshotRun` is set appends a fallback
synchronously and returns without awaiting the in-flight capture.  (All
other paths of `captureScreenshot` are asynchronous; they are modelled by
the scheduler in the single-flight section below.) -/
def captureScreenshotTimerWhileBusy (st : MgrState) (freshId screenshotId : String)
    (nowMs : Int) (pageUrlNow : Option String) : MgrState :=
  if st.screenshotRunActive then
    appendFallbackScreenshotFromLast st "timer" freshId screenshotId nowMs pageUrlNow
  else st

/-- The success tail of `captureScreenshotInternal`
(`SessionManager.ts:824-845`): append the screenshot event for a capture
that succeeded. -/
def appendScreenshotEvent (st : MgrState) (screenshotId relativePath : String)
    (width height : Int) (reason : String) (freshId : String) (nowMs : Int)
    (pageUrl : Option String) : MgrState :=
  match st.sessionId, getTimelineCaptureStartAtMs st.captureStartedAt st.pausedAccumulatedMs with
  | some sid, some startAt =>
    if st.statusState = "capturing" then
      appendEvent st (mkEvent (createBaseEvent freshId ⟨sid, startAt, "screenshot", pageUrl, nowMs⟩)
        (.screenshot screenshotId relativePath width height reason))
    else st
  | _, _ => st

/-- The state template all fields start from (`STATUS_TEMPLATE` plus the
runtime fields). -/
def initialState : MgrState :=
  { statusState := "idle"
    sessionId := none
    captureStartedAt := none
    captureEndedAt := none
    countsEvents := 0
    countsScreenshots := 0
    countsNetworkRequests := 0
    events := []
    lastScreenshotEvent := none
    screenshotRunActive := false
    responseByRequestId := []
    requestUrlById := []
    pausedStartedAtMs := none
    pausedAccumulatedMs := 0
    streamOpen := false
    streamLines := []
    containsBodies := false }

/-- `bootstrapLiveSession` (`SessionManager.ts:428-465`): fresh session id,
empty log, zero counters, cleared correlation maps, fresh status. -/
def bootstrapLiveSession (st : MgrState) (sessionId : String) : MgrState :=
  { st with
    statusState := "idle"
    sessionId := some sessionId
    captureStartedAt := none
    captureEndedAt := none
    countsEvents := 0
    countsScreenshots := 0
    countsNetworkRequests := 0
    events := []
    lastScreenshotEvent := none
    responseByRequestId := []
    requestUrlById := []
    containsBodies := false }

/-- `resetAllRuntime` (`SessionManager.ts:965-999`): stop everything, close
the stream, clear the log, counters, correlation maps and pause state. -/
def resetAllRuntime (st : MgrState) : MgrState :=
  { st with
    screenshotRunActive := false
    streamOpen := false
    events := []
    lastScreenshotEvent := none
    requestUrlById := []
    responseByRequestId := []
    containsBodies := false
    pausedStartedAtMs := none
    pausedAccumulatedMs := 0
    statusState := "idle"
    sessionId := none
    captureStartedAt := none
    captureEndedAt := none
    countsEvents := 0
    countsScreenshots := 0
    countsNetworkRequests := 0 }

/-- `launchBrowser` (`SessionManager.ts:177-210`): reset, bootstrap, then
advance to `browser_ready`. -/
def launchBrowserStep (st : MgrState) (sessionId : String) : MgrState :=
  { bootstrapLiveSession (resetAllRuntime st) sessionId with statusState := "browser_ready" }

/-- `startCapture` (`SessionManager.ts:212-246`): open the stream, record
the capture start, reset the pause accumulator, emit
`lifecycle(capture_started)`.  (The immediate `manual-start` screenshot is a
separate asynchronous step.) -/
def startCaptureStep (st : MgrState) (nowMs : Int) (freshId : String)
    (pageUrl : Option String) : MgrState :=
  if st.statusState = "browser_ready" ∧ st.sessionId.isSome then
    emitLifecycleEvent
      { st with
        streamOpen := true
        captureStartedAt := some nowMs
        captureEndedAt := none
        statusState := "capturing"
        pausedStartedAtMs := none
        pausedAccumulatedMs := 0 }
      "capture_started" none freshId nowMs pageUrl
  else st

/-- `pauseCapture` (`SessionManager.ts:248-264`). -/
def pauseCaptureStep (st : MgrState) (nowMs : Int) (freshId : String)
    (pageUrl : Option String) : MgrState :=
  if st.statusState = "capturing" then
    { emitLifecycleEvent st "capture_paused" none freshId nowMs pageUrl with
      pausedStartedAtMs := some nowMs
      statusState := "paused" }
  else st

/-- `resumeCapture` (`SessionManager.ts:266-293`). -/
def resumeCaptureStep (st : MgrState) (nowMs : Int) (freshId : String)
    (pageUrl : Option String) : MgrState :=
  if st.statusState = "paused" then
    let p := consumePausedDuration st.pausedStartedAtMs st.pausedAccumulatedMs nowMs
    emitLifecycleEvent
      { st with
        pausedStartedAtMs := p.1
        pausedAccumulatedMs := p.2
        captureEndedAt := none
        statusState := "capturing" }
      "capture_resumed" none freshId nowMs pageUrl
  else st

/-- The sequence of observable states produced by `stopCaptureInternal`
(`SessionManager.ts:467-497`), one entry per atomic sub-step: fold an
in-progress pause, wait for the in-flight screenshot, emit
`lifecycle(capture_stopped)`, record `captureEndedAt`, set the state to
`captured`, then flush and close the durable stream.  (Writing the manifest
and the best-effort auto-saves touch only the file system.) -/
def stopCaptureTrace (st : MgrState) (reason : String) (nowPause nowEmit nowEnd : Int)
    (freshId : String) (pageUrl : Option String) : List MgrState :=
  if st.statusState = "capturing" ∨ st.statusState = "paused" then
    let s1 := if st.statusState = "paused" then
        let p := consumePausedDuration st.pausedStartedAtMs st.pausedAccumulatedMs nowPause
        { st with pausedStartedAtMs := p.1
                  pausedAccumulatedMs := p.2 }
      else st
    let s2 := { s1 with screenshotRunActive := false }
    let s3 := emitLifecycleEvent s2 "capture_stopped" (some reason) freshId nowEmit pageUrl
    let s4 := { s3 with captureEndedAt := some nowEnd }
    let s5 := { s4 with statusState := "captured" }
    let s6 := { s5 with streamOpen := false }
    [st, s1, s2, s3, s4, s5, s6]
  else [st]

/-- The final state after `stopCaptureInternal` returns. -/
def stopCaptureStep (st : MgrState) (reason : String) (nowPause nowEmit nowEnd : Int)
    (freshId : String) (pageUrl : Option String) : MgrState :=
  match (stopCaptureTrace st reason nowPause nowEmit nowEnd freshId pageUrl).getLast? with
  | some s => s
  | none => st

theorem mapGet_mapDelete {α : Type} (m : List (String × α)) (k : String) :
    mapGet (mapDelete m k) k = none := by
  induction m with
  | nil => rfl
  | cons kv rest ih =>
    obtain ⟨k2, v⟩ := kv
    unfold mapDelete at ih ⊢
    rw [List.filter_cons]
    by_cases h : k2 = k
    · rw [if_neg (by simp [h])]
      exact ih
    · rw [if_pos (by simp [h])]
      show mapGet ((k2, v) :: _) k = none
      simp only [mapGet, if_neg h]
      exact ih

theorem handleResponseReceived_events (st : MgrState) (requestId url : String) (status : Int)
    (statusText : String) (headers : List (String × String)) (mimeType : Option String) :
    (handleResponseReceived st requestId url status statusText headers mimeType).events =
      st.events := by
  unfold handleResponseReceived
  split <;> rfl

theorem handleLoadingFinished_noPending (st : MgrState) (requestId : String)
    (bodyFetched : Bool) (nameNowMs : Int) (freshId : String) (nowMs : Int)
    (pageUrl : Option String) (h : mapGet st.responseByRequestId requestId = none) :
    handleLoadingFinished st requestId bodyFetched nameNowMs freshId nowMs pageUrl = st := by
  unfold handleLoadingFinished
  split
  · split
    · rw [h]
    · rfl
  · rfl

theorem handleLoadingFinished_pending (st : MgrState) (requestId : String)
    (resp : PendingResponse) (bodyFetched : Bool) (nameNowMs : Int) (freshId : String)
    (nowMs : Int) (pageUrl : Option String) (sid : String) (start : Int)
    (hcap : st.statusState = "capturing") (hsid : st.sessionId = some sid)
    (hstart : st.captureStartedAt = some start) (h0 : start ≠ 0)
    (hpend : mapGet st.responseByRequestId requestId = some resp) :
    (handleLoadingFinished st requestId bodyFetched nameNowMs freshId nowMs pageUrl).events =
      st.events ++ [mkEvent
        (createBaseEvent freshId
          ⟨sid, start + st.pausedAccumulatedMs, "network_response", pageUrl, nowMs⟩)
        (.network_response resp.requestId resp.status resp.statusText resp.headers
          resp.mimeType
          (if bodyFetched then
            some ("network/bodies/" ++ sanitizeFileFragment requestId ++ "-" ++
              toString nameNowMs ++ ".bin")
          else none))] ∧
    mapGet (handleLoadingFinished st requestId bodyFetched nameNowMs freshId nowMs
      pageUrl).responseByRequestId requestId = none := by
  unfold handleLoadingFinished
  rw [hsid]
  rw [show getTimelineCaptureStartAtMs st.captureStartedAt st.pausedAccumulatedMs =
    some (start + st.pausedAccumulatedMs) from by
      rw [hstart]; simp [getTimelineCaptureStartAtMs, h0]]
  simp only [hcap, if_pos, hpend]
  constructor
  · simp [appendEvent]
  · exact mapGet_mapDelete _ _

theorem handleLoadingFailed_events (st : MgrState) (requestId errorText : String)
    (canceled : Bool) (freshId : String) (nowMs : Int) (pageUrl : Option String)
    (sid : String) (start : Int)
    (hcap : st.statusState = "capturing") (hsid : st.sessionId = some sid)
    (hstart : st.captureStartedAt = some start) (h0 : start ≠ 0) :
    (handleLoadingFailed st requestId errorText canceled freshId nowMs pageUrl).events =
      st.events ++ [mkEvent
        (createBaseEvent freshId
          ⟨sid, start + st.pausedAccumulatedMs, "network_fail", pageUrl, nowMs⟩)
        (.network_fail requestId (mapGet st.requestUrlById requestId) errorText canceled)] := by
  unfold handleLoadingFailed
  rw [hsid]
  rw [show getTimelineCaptureStartAtMs st.captureStartedAt st.pausedAccumulatedMs =
    some (start + st.pausedAccumulatedMs) from by
      rw [hstart]; simp [getTimelineCaptureStartAtMs, h0]]
  simp only [hcap, if_pos]
  simp [appendEvent]

theorem handleLoadingFailed_clears_pending (st : MgrState) (requestId errorText : String)
    (canceled : Bool) (freshId : String) (nowMs : Int) (pageUrl : Option String)
    (sid : String) (start : Int)
    (hcap : st.statusState = "capturing") (hsid : st.sessionId = some sid)
    (hstart : st.captureStartedAt = some start) (h0 : start ≠ 0) :
    mapGet (handleLoadingFailed st requestId errorText canceled freshId nowMs
      pageUrl).responseByRequestId requestId = none := by
  unfold handleLoadingFailed
  rw [hsid]
  rw [show getTimelineCaptureStartAtMs st.captureStartedAt st.pausedAccumulatedMs =
    some (start + st.pausedAccumulatedMs) from by
      rw [hstart]; simp [getTimelineCaptureStartAtMs, h0]]
  simp only [hcap, if_pos]
  exact mapGet_mapDelete _ _

/-- C6: network correlation discipline.  A response-received callback never
appends an event (it only stashes metadata); a loading-finished callback
with no pending entry appends nothing; a loading-finished callback with a
pending entry (during capture) appends exactly one `network_response` for
that request and removes the pending entry; a request that fails before
loading-finished appends a `network_fail`, and the later loading-finished
for it changes nothing, so it never yields a `network_response`. -/
theorem c6_network_correlation :
    (∀ (st : MgrState) (requestId url : String) (status : Int) (statusText : String)
        (headers : List (String × String)) (mimeType : Option String),
      (handleResponseReceived st requestId url status statusText headers mimeType).events =
        st.events) ∧
    (∀ (st : MgrState) (requestId : String) (bodyFetched : Bool) (nameNowMs : Int)
        (freshId : String) (nowMs : Int) (pageUrl : Option String),
      mapGet st.responseByRequestId requestId = none →
      handleLoadingFinished st requestId bodyFetched nameNowMs freshId nowMs pageUrl = st) ∧
    (∀ (st : MgrState) (requestId : String) (resp : PendingResponse) (bodyFetched : Bool)
        (nameNowMs : Int) (freshId : String) (nowMs : Int) (pageUrl : Option String)
        (sid : String) (start : Int),
      st.statusState = "capturing" → st.sessionId = some sid →
      st.captureStartedAt = some start → start ≠ 0 →
      mapGet st.responseByRequestId requestId = some resp →
      (handleLoadingFinished st requestId bodyFetched nameNowMs freshId nowMs
          pageUrl).events =
        st.events ++ [mkEvent
          (createBaseEvent freshId
            ⟨sid, start + st.pausedAccumulatedMs, "network_response", pageUrl, nowMs⟩)
          (.network_response resp.requestId resp.status resp.statusText resp.headers
            resp.mimeType
            (if bodyFetched then
              some ("network/bodies/" ++ sanitizeFileFragment requestId ++ "-" ++
                toString nameNowMs ++ ".bin")
            else none))] ∧
      mapGet (handleLoadingFinished st requestId bodyFetched nameNowMs freshId nowMs
        pageUrl).responseByRequestId requestId = none) ∧
    (∀ (st : MgrState) (requestId errorText : String) (canceled : Bool) (freshId : String)
        (nowMs : Int) (pageUrl : Option String) (bodyFetched : Bool) (nameNowMs : Int)
        (freshId2 : String) (nowMs2 : Int) (pageUrl2 : Option String) (sid : String)
        (start : Int),
      st.statusState = "capturing" → st.sessionId = some sid →
      st.captureStartedAt = some start → start ≠ 0 →
      (handleLoadingFailed st requestId errorText canceled freshId nowMs pageUrl).events =
        st.events ++ [mkEvent
          (createBaseEvent freshId
            ⟨sid, start + st.pausedAccumulatedMs, "network_fail", pageUrl, nowMs⟩)
          (.network_fail requestId (mapGet st.requestUrlById requestId) errorText canceled)] ∧
      handleLoadingFinished
        (handleLoadingFailed st requestId errorText canceled freshId nowMs pageUrl)
        requestId bodyFetched nameNowMs freshId2 nowMs2 pageUrl2 =
          handleLoadingFailed st requestId errorText canceled freshId nowMs pageUrl) := by
  refine ⟨handleResponseReceived_events, handleLoadingFinished_noPending, ?_, ?_⟩
  · intro st requestId resp bodyFetched nameNowMs freshId nowMs pageUrl sid start
      hcap hsid hstart h0 hpend
    exact handleLoadingFinished_pending st requestId resp bodyFetched nameNowMs freshId
      nowMs pageUrl sid start hcap hsid hstart h0 hpend
  · intro st requestId errorText canceled freshId nowMs pageUrl bodyFetched nameNowMs
      freshId2 nowMs2 pageUrl2 sid start hcap hsid hstart h0
    refine ⟨handleLoadingFailed_events st requestId errorText canceled freshId nowMs
      pageUrl sid start hcap hsid hstart h0, ?_⟩
    exact handleLoadingFinished_noPending _ requestId bodyFetched nameNowMs freshId2
      nowMs2 pageUrl2
      (handleLoadingFailed_clears_pending st requestId errorText canceled freshId nowMs
        pageUrl sid start hcap hsid hstart h0)

/-- A concrete capturing state with one pending response for request
`"17"`. -/
def c6State : MgrState :=
  { initialState with
    statusState := "capturing"
    sessionId := some "s"
    captureStartedAt := some 1000
    responseByRequestId := [("17", ⟨"17", "https://x", 200, "OK", [], none⟩)] }

/-- Witness for C6 at the concrete state: loading-finished with the pending
entry for request `"17"` appends exactly one `network_response` and clears
the entry; a failing request appends `network_fail` and a later
loading-finished for it changes nothing. -/
theorem c6_network_correlation_witness :
    (handleLoadingFinished c6State "17" false 0 "f1" 1450 none).events =
      c6State.events ++ [mkEvent
        (createBaseEvent "f1"
          ⟨"s", 1000 + c6State.pausedAccumulatedMs, "network_response", none, 1450⟩)
        (.network_response "17" 200 "OK" [] none none)] ∧
    mapGet (handleLoadingFinished c6State "17" false 0 "f1" 1450
      none).responseByRequestId "17" = none ∧
    handleLoadingFinished
      (handleLoadingFailed c6State "17" "net::ERR" false "f2" 1500 none)
      "17" false 0 "f3" 1600 none =
      handleLoadingFailed c6State "17" "net::ERR" false "f2" 1500 none :=
  have h3 := c6_network_correlation.2.2.1 c6State "17"
    ⟨"17", "https://x", 200, "OK", [], none⟩ false 0 "f1" 1450 none "s" 1000
    rfl rfl rfl (by decide) rfl
  have h4 := c6_network_correlation.2.2.2 c6State "17" "net::ERR" false "f2" 1500 none
    false 0 "f3" 1600 none "s" 1000 rfl rfl rfl (by decide)
  ⟨h3.1, h3.2, h4.2⟩

/-- C4 (amended): a timer-triggered screenshot request arriving while a
capture is in flight returns synchronously (leaving the in-flight run
untouched) and — provided the session is capturing and a prior screenshot
event exists — appends a fallback event with a fresh id, current absolute
and relative timestamps, reason `"timer"`, and the path, width and height
of the last screenshot event; when no screenshot has ever been recorded it
appends nothing. -/
theorem c4_timer_fallback (st : MgrState) (freshId screenshotId : String) (nowMs : Int)
    (pageUrlNow : Option String) (lastEv : CaptureEvent) (sid : String) (start : Int)
    (lsid path : String) (w h : Int) (lreason : String)
    (hbusy : st.screenshotRunActive = true)
    (hcap : st.statusState = "capturing")
    (hlast : st.lastScreenshotEvent = some lastEv)
    (hsid : st.sessionId = some sid)
    (hstart : st.captureStartedAt = some start) (h0 : start ≠ 0)
    (hdata : lastEv.data = .screenshot lsid path w h lreason) :
    (captureScreenshotTimerWhileBusy st freshId screenshotId nowMs pageUrlNow).events =
      st.events ++ [⟨freshId, sid, nowMs, max 0 (nowMs - (start + st.pausedAccumulatedMs)),
        (match pageUrlNow with | some u => some u | none => lastEv.pageUrl),
        .screenshot screenshotId path w h "timer"⟩] ∧
    (captureScreenshotTimerWhileBusy st freshId screenshotId nowMs
      pageUrlNow).screenshotRunActive = true := by
  unfold captureScreenshotTimerWhileBusy appendFallbackScreenshotFromLast
  rw [hbusy, hcap, hlast, hsid, hstart]
  simp only [getTimelineCaptureStartAtMs, if_pos, if_neg h0, hdata]
  constructor
  · simp [appendEvent, mkEvent, createBaseEvent, CaptureEvent.kind]
  · exact hbusy

/-- A capturing state with an in-flight capture and no prior screenshot. -/
def c4State : MgrState :=
  { initialState with
    statusState := "capturing"
    sessionId := some "s"
    captureStartedAt := some 1000
    screenshotRunActive := true }

/-- C4 counterexample: a timer request arriving while a capture is in
flight, in a capturing session with no previously captured screenshot,
appends nothing — the state is unchanged and the event log stays empty — so
the claim that such a request always appends a fallback screenshot event is
false. -/
theorem c4_counterexample :
    captureScreenshotTimerWhileBusy c4State "f-id" "s-id" 5000 none = c4State ∧
    c4State.events = [] ∧ c4State.screenshotRunActive = true ∧
    c4State.statusState = "capturing" ∧ c4State.lastScreenshotEvent = none :=
  ⟨rfl, rfl, rfl, rfl, rfl⟩

/-- A capturing state with an in-flight capture and a prior screenshot
event. -/
def c4StateShot : MgrState :=
  { c4State with
    lastScreenshotEvent := some ⟨"e0", "s", 1200, 200, none,
      .screenshot "shot0" "screenshots/1.png" 800 600 "manual-start"⟩ }

/-- Witness for C4 at a concrete state with a prior screenshot. -/
theorem c4_timer_fallback_witness :
    (captureScreenshotTimerWhileBusy c4StateShot "f-id" "s-id" 5000 none).events =
      c4StateShot.events ++ [⟨"f-id", "s", 5000,
        max 0 (5000 - (1000 + c4StateShot.pausedAccumulatedMs)), none,
        .screenshot "s-id" "screenshots/1.png" 800 600 "timer"⟩] ∧
    (captureScreenshotTimerWhileBusy c4StateShot "f-id" "s-id" 5000
      none).screenshotRunActive = true :=
  c4_timer_fallback c4StateShot "f-id" "s-id" 5000 none
    ⟨"e0", "s", 1200, 200, none, .screenshot "shot0" "screenshots/1.png" 800 600 "manual-start"⟩
    "s" 1000 "shot0" "screenshots/1.png" 800 600 "manual-start"
    rfl rfl rfl rfl rfl (by decide) rfl

/-- C9 (amended): when capture stops, the observable state first advances to
`captured` and the durable stream is flushed and closed afterwards — both
before `stopCapture` returns, so the final observable state is `captured`
with the stream closed, but there is an intermediate observable state that
is already `captured` while the append stream is still open. -/
theorem c9_stop_ordering (st : MgrState) (reason : String) (nowPause nowEmit nowEnd : Int)
    (freshId : String) (pageUrl : Option String)
    (hcap : st.statusState = "capturing") (hstream : st.streamOpen = true) :
    (∃ sFinal, (stopCaptureTrace st reason nowPause nowEmit nowEnd freshId
        pageUrl).getLast? = some sFinal ∧
      sFinal.statusState = "captured" ∧ sFinal.streamOpen = false) ∧
    (∃ s ∈ stopCaptureTrace st reason nowPause nowEmit nowEnd freshId pageUrl,
      s.statusState = "captured" ∧ s.streamOpen = true) := by
  unfold stopCaptureTrace
  rw [if_pos (Or.inl hcap), if_neg (by rw [hcap]; decide)]
  constructor
  · exact ⟨_, rfl, rfl, rfl⟩
  · refine ⟨_, by simp only [List.mem_cons]; exact Or.inr (Or.inr (Or.inr (Or.inr
      (Or.inr (Or.inl rfl))))), rfl, ?_⟩
    show (emitLifecycleEvent { st with screenshotRunActive := false } "capture_stopped"
      (some reason) freshId nowEmit pageUrl).streamOpen = true
    unfold emitLifecycleEvent
    split
    · exact hstream
    · exact hstream

/-- A concrete capturing state with the durable stream open. -/
def c9State : MgrState :=
  { initialState with
    statusState := "capturing"
    sessionId := some "s"
    captureStartedAt := some 1000
    streamOpen := true }

/-- C9 counterexample: on this concrete stop sequence there is an observable
state whose `state` is `captured` while the append stream is still open, so
the claim that the stream is flushed and closed before the state advances to
`captured` is false. -/
theorem c9_counterexample :
    ∃ s ∈ stopCaptureTrace c9State "manual_stop" 0 2000 2001 "id1" none,
      s.statusState = "captured" ∧ s.streamOpen = true :=
  (c9_stop_ordering c9State "manual_stop" 0 2000 2001 "id1" none rfl rfl).2

/-- Witness for C9 at the concrete state. -/
theorem c9_stop_ordering_witness :
    ∃ sFinal, (stopCaptureTrace c9State "manual_stop" 0 2000 2001 "id1"
        none).getLast? = some sFinal ∧
      sFinal.statusState = "captured" ∧ sFinal.streamOpen = false :=
  (c9_stop_ordering c9State "manual_stop" 0 2000 2001 "id1" none rfl rfl).1

/-- The counts invariant: the status counters agree with the in-memory
log. -/
def countsInv (st : MgrState) : Prop :=
  st.countsEvents = st.events.length ∧
  st.countsScreenshots = (st.events.filter fun e => e.kind = "screenshot").length ∧
  st.countsNetworkRequests = (st.events.filter fun e => e.kind = "network_request").length

theorem countsInv_appendEvent (st : MgrState) (e : CaptureEvent) (h : countsInv st) :
    countsInv (appendEvent st e) := by
  obtain ⟨h1, h2, h3⟩ := h
  refine ⟨?_, ?_, ?_⟩
  · simp [appendEvent, h1]
  · by_cases hk : e.kind = "screenshot" <;>
      simp [appendEvent, List.filter_append, hk, h2]
  · by_cases hk : e.kind = "network_request" <;>
      simp [appendEvent, List.filter_append, hk, h3]

theorem countsInv_emitLifecycle (st : MgrState) (action : String) (reason : Option String)
    (freshId : String) (nowMs : Int) (pageUrl : Option String) (h : countsInv st) :
    countsInv (emitLifecycleEvent st action reason freshId nowMs pageUrl) := by
  unfold emitLifecycleEvent
  split
  · exact countsInv_appendEvent _ _ h
  · exact h

theorem countsInv_stopStep (st : MgrState) (reason : String) (nowPause nowEmit nowEnd : Int)
    (freshId : String) (pageUrl : Option String) (h : countsInv st) :
    countsInv (stopCaptureStep st reason nowPause nowEmit nowEnd freshId pageUrl) := by
  unfold stopCaptureStep stopCaptureTrace
  by_cases hc : st.statusState = "capturing" ∨ st.statusState = "paused"
  · rw [if_pos hc]
    by_cases hp : st.statusState = "paused"
    · rw [if_pos hp]
      exact countsInv_emitLifecycle _ _ _ _ _ _ h
    · rw [if_neg hp]
      exact countsInv_emitLifecycle _ _ _ _ _ _ h
  · rw [if_neg hc]
    exact h

/-- The controller states reachable through the live-session operations. -/
inductive ReachableLive : MgrState → Prop where
  | init : ReachableLive initialState
  | launch (st : MgrState) (sid : String) :
      ReachableLive st → ReachableLive (launchBrowserStep st sid)
  | reset (st : MgrState) : ReachableLive st → ReachableLive (resetAllRuntime st)
  | bootstrap (st : MgrState) (sid : String) :
      ReachableLive st → ReachableLive (bootstrapLiveSession st sid)
  | start (st : MgrState) (nowMs : Int) (freshId : String) (pageUrl : Option String) :
      ReachableLive st → ReachableLive (startCaptureStep st nowMs freshId pageUrl)
  | pause (st : MgrState) (nowMs : Int) (freshId : String) (pageUrl : Option String) :
      ReachableLive st → ReachableLive (pauseCaptureStep st nowMs freshId pageUrl)
  | resume (st : MgrState) (nowMs : Int) (freshId : String) (pageUrl : Option String) :
      ReachableLive st → ReachableLive (resumeCaptureStep st nowMs freshId pageUrl)
  | stop (st : MgrState) (reason : String) (nowPause nowEmit nowEnd : Int)
      (freshId : String) (pageUrl : Option String) :
      ReachableLive st →
      ReachableLive (stopCaptureStep st reason nowPause nowEmit nowEnd freshId pageUrl)
  | consoleMsg (st : MgrState) (level text : String) (argsJson : Option String)
      (freshId : String) (nowMs : Int) (pageUrl : Option String) :
      ReachableLive st →
      ReachableLive (handleConsoleMessage st level text argsJson freshId nowMs pageUrl)
  | requestSent (st : MgrState) (requestId method url : String)
      (headers : List (String × String)) (postData resourceType : Option String)
      (freshId : String) (nowMs : Int) (pageUrl : Option String) :
      ReachableLive st →
      ReachableLive (handleRequestWillBeSent st requestId method url headers postData
        resourceType freshId nowMs pageUrl)
  | responseReceived (st : MgrState) (requestId url : String) (status : Int)
      (statusText : String) (headers : List (String × String)) (mimeType : Option String) :
      ReachableLive st →
      ReachableLive (handleResponseReceived st requestId url status statusText headers
        mimeType)
  | loadingFinished (st : MgrState) (requestId : String) (bodyFetched : Bool)
      (nameNowMs : Int) (freshId : String) (nowMs : Int) (pageUrl : Option String) :
      ReachableLive st →
      ReachableLive (handleLoadingFinished st requestId bodyFetched nameNowMs freshId
        nowMs pageUrl)
  | loadingFailed (st : MgrState) (requestId errorText : String) (canceled : Bool)
      (freshId : String) (nowMs : Int) (pageUrl : Option String) :
      ReachableLive st →
      ReachableLive (handleLoadingFailed st requestId errorText canceled freshId nowMs
        pageUrl)
  | fallbackShot (st : MgrState) (freshId screenshotId : String) (nowMs : Int)
      (pageUrlNow : Option String) :
      ReachableLive st →
      ReachableLive (captureScreenshotTimerWhileBusy st freshId screenshotId nowMs
        pageUrlNow)
  | shotDone (st : MgrState) (screenshotId relativePath : String) (width height : Int)
      (reason : String) (freshId : String) (nowMs : Int) (pageUrl : Option String) :
      ReachableLive st →
      ReachableLive (appendScreenshotEvent st screenshotId relativePath width height
        reason freshId nowMs pageUrl)

/-- C10: in every reachable controller state of a live session the status
counters agree with the in-memory log (`counts.events` is the log length,
`counts.screenshots` and `counts.networkRequests` count the events of those
kinds); every append preserves this, and both session resets
(`bootstrapLiveSession` and `resetAllRuntime`) zero all three counters
together with an empty log. -/
theorem c10_counts_invariant :
    (∀ st : MgrState, ReachableLive st → countsInv st) ∧
    (∀ (st : MgrState) (e : CaptureEvent), countsInv st → countsInv (appendEvent st e)) ∧
    (∀ (st : MgrState) (sid : String),
      (bootstrapLiveSession st sid).countsEvents = 0 ∧
      (bootstrapLiveSession st sid).countsScreenshots = 0 ∧
      (bootstrapLiveSession st sid).countsNetworkRequests = 0 ∧
      (bootstrapLiveSession st sid).events = []) ∧
    (∀ st : MgrState,
      (resetAllRuntime st).countsEvents = 0 ∧
      (resetAllRuntime st).countsScreenshots = 0 ∧
      (resetAllRuntime st).countsNetworkRequests = 0 ∧
      (resetAllRuntime st).events = []) := by
  refine ⟨?_, countsInv_appendEvent, fun st sid => ⟨rfl, rfl, rfl, rfl⟩,
    fun st => ⟨rfl, rfl, rfl, rfl⟩⟩
  intro st h
  induction h with
  | init => exact ⟨rfl, rfl, rfl⟩
  | launch st sid _ _ => exact ⟨rfl, rfl, rfl⟩
  | reset st _ _ => exact ⟨rfl, rfl, rfl⟩
  | bootstrap st sid _ _ => exact ⟨rfl, rfl, rfl⟩
  | start st nowMs freshId pageUrl _ ih =>
    unfold startCaptureStep
    repeat' split
    all_goals first
      | exact countsInv_emitLifecycle _ _ _ _ _ _ ih
      | exact ih
  | pause st nowMs freshId pageUrl _ ih =>
    unfold pauseCaptureStep
    repeat' split
    all_goals first
      | exact countsInv_emitLifecycle _ _ _ _ _ _ ih
      | exact ih
  | resume st nowMs freshId pageUrl _ ih =>
    unfold resumeCaptureStep
    repeat' split
    all_goals first
      | exact countsInv_emitLifecycle _ _ _ _ _ _ ih
      | exact ih
  | stop st reason nowPause nowEmit nowEnd freshId pageUrl _ ih =>
    exact countsInv_stopStep st reason nowPause nowEmit nowEnd freshId pageUrl ih
  | consoleMsg st level text argsJson freshId nowMs pageUrl _ ih =>
    unfold handleConsoleMessage
    repeat' split
    all_goals first
      | exact countsInv_appendEvent _ _ ih
      | exact ih
  | requestSent st requestId method url headers postData resourceType freshId nowMs
      pageUrl _ ih =>
    unfold handleRequestWillBeSent
    repeat' split
    all_goals first
      | exact countsInv_appendEvent _ _ ih
      | exact ih
  | responseReceived st requestId url status statusText headers mimeType _ ih =>
    unfold handleResponseReceived
    repeat' split
    all_goals exact ih
  | loadingFinished st requestId bodyFetched nameNowMs freshId nowMs pageUrl _ ih =>
    unfold handleLoadingFinished
    repeat' split
    all_goals first
      | exact countsInv_appendEvent _ _ ih
      | exact ih
  | loadingFailed st requestId errorText canceled freshId nowMs pageUrl _ ih =>
    unfold handleLoadingFailed
    repeat' split
    all_goals first
      | exact countsInv_appendEvent _ _ ih
      | exact ih
  | fallbackShot st freshId screenshotId nowMs pageUrlNow _ ih =>
    unfold captureScreenshotTimerWhileBusy appendFallbackScreenshotFromLast
    repeat' split
    all_goals first
      | exact countsInv_appendEvent _ _ ih
      | exact ih
  | shotDone st screenshotId relativePath width height reason freshId nowMs pageUrl
      _ ih =>
    unfold appendScreenshotEvent
    repeat' split
    all_goals first
      | exact countsInv_appendEvent _ _ ih
      | exact ih

/-- Witness for C10: the invariant at a concrete reachable state, invariant
preservation at a concrete append, and both resets at concrete states. -/
theorem c10_counts_invariant_witness :
    countsInv (launchBrowserStep initialState "s") ∧
    countsInv (appendEvent initialState c3SampleEvent) ∧
    (bootstrapLiveSession initialState "s").countsEvents = 0 ∧
    (resetAllRuntime initialState).events = [] :=
  ⟨c10_counts_invariant.1 (launchBrowserStep initialState "s")
      (ReachableLive.launch initialState "s" ReachableLive.init),
   c10_counts_invariant.2.1 initialState c3SampleEvent
     (c10_counts_invariant.1 initialState ReachableLive.init),
   (c10_counts_invariant.2.2.1 initialState "s").1,
   (c10_counts_invariant.2.2.2 initialState).2.2.2⟩

/-! ## Range export (`saveRangeSnapshot`, `copyRangeAssets`,
`writeRangeSessionMetadata`, `normalizeExportRange`,
`SessionManager.ts:1091-1209`) -/

/-- The event filter of `saveRangeSnapshot`: canonically sorted events whose
`tRelMs` lies within the clamped bounds. -/
def filterRangeEvents (events : List CaptureEvent) (startMs endMs : Int) :
    List CaptureEvent :=
  (sortEvents events).filter fun e => startMs ≤ e.tRelMs ∧ e.tRelMs ≤ endMs

/-- `saveRangeSnapshot` up to its event selection: rejects when the clamped
range selects zero events. -/
def saveRangeSnapshotEvents (events : List CaptureEvent) (startMs endMs : Int) :
    Except String (List CaptureEvent) :=
  let filteredEvents := filterRangeEvents events startMs endMs
  if filteredEvents.length = 0 then Except.error "No events found in the selected range."
  else Except.ok filteredEvents

/-- The manifest counts recomputed by `writeRangeSessionMetadata`. -/
structure RangeCounts where
  events : Nat
  screenshots : Nat
  networkRequests : Nat
deriving DecidableEq

/-- `writeRangeSessionMetadata` count computation over the filtered
events. -/
def writeRangeCounts (events : List CaptureEvent) : RangeCounts :=
  let sorted := sortEvents events
  ⟨sorted.length,
   (sorted.filter fun e => e.kind = "screenshot").length,
   (sorted.filter fun e => e.kind = "network_request").length⟩

/-- `writeRangeSessionMetadata` recomputation of `containsBodies`. -/
def rangeContainsBodies (events : List CaptureEvent) : Bool :=
  (sortEvents events).any fun e =>
    match e.data with
    | .network_response _ _ _ _ _ bodyPath => bodyPath.isSome
    | _ => false

/-- Does event `e` reference the asset at relative path `p`? -/
def referencesAsset (e : CaptureEvent) (p : String) : Prop :=
  match e.data with
  | .screenshot _ path _ _ _ => path = p
  | .network_response _ _ _ _ _ bodyPath => bodyPath = some p
  | _ => False

/-- One step of the asset collection of `copyRangeAssets` (insertion into
the `Set<string>` of referenced paths). -/
def rangeAssetStep (acc : List String) (e : CaptureEvent) : List String :=
  match e.data with
  | .screenshot _ path _ _ _ => if path ∈ acc then acc else acc ++ [path]
  | .network_response _ _ _ _ _ (some bodyPath) =>
    if bodyPath ∈ acc then acc else acc ++ [bodyPath]
  | _ => acc

/-- The referenced asset paths of the filtered events, first occurrence
first. -/
def rangeAssetPaths (events : List CaptureEvent) : List String :=
  events.foldl rangeAssetStep []

/-- `toSafeRelativePath`: strip leading separators and reject paths escaping
the session root.  (`path.normalize` is modelled as the identity on the
already-normal relative paths the session generates.) -/
def toSafeRelativePath (relativePath : String) : Option String :=
  let normalized := String.mk (relativePath.data.dropWhile fun c => c = '/' ∨ c = '\\')
  if normalized.data.take 2 = ['.', '.'] then none else some normalized

/-- The relative paths `copyRangeAssets` attempts to copy into the export
root (copying a missing source asset is logged and skipped, which adds no
further paths). -/
def copiedRangeAssets (events : List CaptureEvent) : List String :=
  (rangeAssetPaths events).filterMap toSafeRelativePath

/-- `normalizeExportRange` (`SessionManager.ts:1182-1209`): order the two
bounds, clamp them to the first and last `tRelMs` of the sorted timeline,
and reject when the clamped interval is empty.  (`Number.isFinite` holds for
every value of the integer model.) -/
def normalizeExportRange (sortedEvents : List CaptureEvent)
    (range : Option (Int × Int)) : Except String (Option (Int × Int)) :=
  match range with
  | none => Except.ok none
  | some (startRaw, endRaw) =>
    let startMs := min startRaw endRaw
    let endMs := max startRaw endRaw
    let clamped : Int × Int :=
      match sortedEvents.head?, sortedEvents.getLast? with
      | some firstEv, some lastEv => (max firstEv.tRelMs startMs, min lastEv.tRelMs endMs)
      | _, _ => (startMs, endMs)
    if clamped.2 < clamped.1 then
      Except.error "Selected range is outside the captured timeline."
    else Except.ok (some clamped)

/-- The event-selection outcome of `save` with a range: normalize the range
against the sorted timeline, then run the snapshot filter;
`Except.ok none` is a full (non-range) export. -/
def exportRangeResult (events : List CaptureEvent) (range : Option (Int × Int)) :
    Except String (Option (List CaptureEvent)) :=
  match normalizeExportRange (sortEvents events) range with
  | Except.error e => Except.error e
  | Except.ok none => Except.ok none
  | Except.ok (some (a, b)) =>
    match saveRangeSnapshotEvents events a b with
    | Except.error e => Except.error e
    | Except.ok filtered => Except.ok (some filtered)

theorem count_filter_eq {α : Type} [DecidableEq α] (l : List α) (p : α → Bool) (a : α) :
    (l.filter p).count a = if p a then l.count a else 0 := by
  induction l with
  | nil => simp
  | cons x xs ih =>
    rw [List.filter_cons]
    by_cases hx : p x = true
    · rw [if_pos hx, List.count_cons, List.count_cons, ih]
      by_cases hax : a = x
      · subst hax
        simp [hx]
      · have hax2 : ¬x = a := fun h => hax h.symm
        simp [hax2]
    · rw [if_neg hx, ih, List.count_cons]
      by_cases hpa : p a = true
      · have hax : ¬x = a := fun h => hx (by rw [h]; exact hpa)
        simp [hpa, hax]
      · simp [hpa]

theorem mem_rangeAssetStep (acc : List String) (e : CaptureEvent) (x : String) :
    x ∈ rangeAssetStep acc e ↔ x ∈ acc ∨ referencesAsset e x := by
  rcases e with ⟨id, sid, ts, trel, pu, data⟩
  unfold rangeAssetStep referencesAsset
  cases data with
  | screenshot sid2 path w h r =>
    dsimp only
    split_ifs with hmem
    · constructor
      · exact fun hx => Or.inl hx
      · rintro (hx | rfl)
        · exact hx
        · exact hmem
    · rw [List.mem_append, List.mem_singleton]
      constructor
      · rintro (hx | rfl)
        · exact Or.inl hx
        · exact Or.inr rfl
      · rintro (hx | rfl)
        · exact Or.inl hx
        · exact Or.inr rfl
  | network_response rid st stx hs mt bodyPath =>
    cases bodyPath with
    | none => simp
    | some bp =>
      dsimp only
      split_ifs with hmem
      · constructor
        · exact fun hx => Or.inl hx
        · rintro (hx | h)
          · exact hx
          · rw [Option.some.injEq] at h
            exact h ▸ hmem
      · rw [List.mem_append, List.mem_singleton]
        constructor
        · rintro (hx | rfl)
          · exact Or.inl hx
          · exact Or.inr rfl
        · rintro (hx | h)
          · exact Or.inl hx
          · rw [Option.some.injEq] at h
            exact Or.inr h.symm
  | console l t aj => simp
  | network_request a2 b2 c2 d2 e2 f2 => simp
  | network_fail a2 b2 c2 d2 => simp
  | lifecycle a2 b2 => simp

theorem mem_foldl_rangeAssetStep (events : List CaptureEvent) :
    ∀ (acc : List String) (x : String),
      x ∈ events.foldl rangeAssetStep acc ↔ x ∈ acc ∨ ∃ e ∈ events, referencesAsset e x := by
  induction events with
  | nil => intro acc x; simp
  | cons e es ih =>
    intro acc x
    rw [List.foldl_cons, ih, mem_rangeAssetStep]
    constructor
    · rintro ((hx | hr) | ⟨e2, he2, hr2⟩)
      · exact Or.inl hx
      · exact Or.inr ⟨e, by simp, hr⟩
      · exact Or.inr ⟨e2, by simp [he2], hr2⟩
    · rintro (hx | ⟨e2, he2, hr2⟩)
      · exact Or.inl (Or.inl hx)
      · rcases List.mem_cons.mp he2 with rfl | hmem
        · exact Or.inl (Or.inr hr2)
        · exact Or.inr ⟨e2, hmem, hr2⟩

theorem mem_rangeAssetPaths (events : List CaptureEvent) (x : String) :
    x ∈ rangeAssetPaths events ↔ ∃ e ∈ events, referencesAsset e x := by
  rw [rangeAssetPaths, mem_foldl_rangeAssetStep]
  simp

/-- C7: a range export with clamped bounds `[a, b]` selects exactly the
source-timeline events with `a ≤ tRelMs ≤ b` (as a multiset over the source
log), serialized in canonical sort order, and the written `events.ndjson`
parses back to exactly the filtered events; the regenerated manifest counts
(`events`, `screenshots`, `networkRequests`) and the `containsBodies` flag
are recomputed from the filtered subset alone; and only assets referenced by
events of the filtered subset are copied into the archive. -/
theorem c7_range_export (events : List CaptureEvent) (a b : Int) :
    (∀ e : CaptureEvent, (filterRangeEvents events a b).count e =
      if a ≤ e.tRelMs ∧ e.tRelMs ≤ b then events.count e else 0) ∧
    (filterRangeEvents events a b).Sorted (fun x y => compareCaptureEvents x y ≤ 0) ∧
    parseEventsNdjson
        (String.join ((filterRangeEvents events a b).map serializeEventLine)) =
      some ((filterRangeEvents events a b).map toJson) ∧
    writeRangeCounts (filterRangeEvents events a b) =
      ⟨(filterRangeEvents events a b).length,
       ((filterRangeEvents events a b).filter fun e => e.kind = "screenshot").length,
       ((filterRangeEvents events a b).filter fun e => e.kind = "network_request").length⟩ ∧
    rangeContainsBodies (filterRangeEvents events a b) =
      ((filterRangeEvents events a b).any fun e =>
        match e.data with
        | .network_response _ _ _ _ _ bodyPath => bodyPath.isSome
        | _ => false) ∧
    (∀ p ∈ copiedRangeAssets (filterRangeEvents events a b),
      ∃ e ∈ filterRangeEvents events a b, ∃ p0 : String,
        referencesAsset e p0 ∧ toSafeRelativePath p0 = some p) := by
  refine ⟨?_, ?_, ?_, ?_, ?_, ?_⟩
  · intro e
    rw [filterRangeEvents, count_filter_eq]
    by_cases hp : a ≤ e.tRelMs ∧ e.tRelMs ≤ b
    · rw [if_pos (by simpa using hp), if_pos hp, (sortEvents_perm events).count_eq]
    · rw [if_neg (by simpa using hp), if_neg hp]
  · exact (sortEvents_sorted events).filter _
  · exact serializeEventLines_roundtrip _
  · have hperm := sortEvents_perm (filterRangeEvents events a b)
    rw [writeRangeCounts]
    have h1 := hperm.length_eq
    have h2 : ((sortEvents (filterRangeEvents events a b)).filter
        fun e => e.kind = "screenshot").length =
        ((filterRangeEvents events a b).filter fun e => e.kind = "screenshot").length := by
      rw [← List.countP_eq_length_filter, ← List.countP_eq_length_filter, hperm.countP_eq]
    have h3 : ((sortEvents (filterRangeEvents events a b)).filter
        fun e => e.kind = "network_request").length =
        ((filterRangeEvents events a b).filter fun e => e.kind = "network_request").length := by
      rw [← List.countP_eq_length_filter, ← List.countP_eq_length_filter, hperm.countP_eq]
    rw [h1, h2, h3]
  · have hperm := sortEvents_perm (filterRangeEvents events a b)
    rw [rangeContainsBodies]
    have hiff : ((sortEvents (filterRangeEvents events a b)).any fun e =>
        match e.data with
        | .network_response _ _ _ _ _ bodyPath => bodyPath.isSome
        | _ => false) = true ↔
        (((filterRangeEvents events a b)).any fun e =>
        match e.data with
        | .network_response _ _ _ _ _ bodyPath => bodyPath.isSome
        | _ => false) = true := by
      rw [List.any_eq_true, List.any_eq_true]
      constructor
      · rintro ⟨x, hx, hpx⟩
        exact ⟨x, hperm.mem_iff.mp hx, hpx⟩
      · rintro ⟨x, hx, hpx⟩
        exact ⟨x, hperm.mem_iff.mpr hx, hpx⟩
    cases h1 : ((sortEvents (filterRangeEvents events a b)).any fun e =>
        match e.data with
        | .network_response _ _ _ _ _ bodyPath => bodyPath.isSome
        | _ => false) with
    | true => exact (hiff.mp h1).symm
    | false =>
      cases h2 : (((filterRangeEvents events a b)).any fun e =>
          match e.data with
          | .network_response _ _ _ _ _ bodyPath => bodyPath.isSome
          | _ => false) with
      | true => rw [hiff.mpr h2] at h1; exact h1.symm
      | false => rfl
  · intro p hp
    rw [copiedRangeAssets] at hp
    obtain ⟨p0, hp0mem, hp0⟩ := List.mem_filterMap.mp hp
    obtain ⟨e, he, hr⟩ := (mem_rangeAssetPaths _ p0).mp hp0mem
    exact ⟨e, he, p0, hr, hp0⟩

/-- The `capture_started` lifecycle event of the concrete range-export
timeline. -/
def cEvStart : CaptureEvent :=
  ⟨"a", "s", 1000, 0, none, .lifecycle "capture_started" none⟩

/-- A screenshot event at `tRelMs = 30` referencing
`screenshots/1.png`. -/
def cEvScreenshot : CaptureEvent :=
  ⟨"b", "s", 1030, 30, none, .screenshot "sh1" "screenshots/1.png" 800 600 "timer"⟩

/-- The `capture_stopped` lifecycle event at `tRelMs = 100`. -/
def cEvStop : CaptureEvent :=
  ⟨"c", "s", 1100, 100, none, .lifecycle "capture_stopped" (some "manual_stop")⟩

/-- A concrete three-event timeline with `tRelMs` values 0, 30, 100. -/
def cRangeEvents : List CaptureEvent :=
  [cEvStart, cEvScreenshot, cEvStop]

/-- Witness for C7 at the concrete timeline with bounds `[10, 50]`: the
count equation at the selected screenshot event, and the asset consequence
at its screenshot path. -/
theorem c7_range_export_witness :
    (filterRangeEvents cRangeEvents 10 50).count cEvScreenshot =
      (if (10 : Int) ≤ cEvScreenshot.tRelMs ∧ cEvScreenshot.tRelMs ≤ 50 then
        cRangeEvents.count cEvScreenshot else 0) ∧
    ∃ e ∈ filterRangeEvents cRangeEvents 10 50, ∃ p0 : String,
      referencesAsset e p0 ∧ toSafeRelativePath p0 = some "screenshots/1.png" :=
  ⟨(c7_range_export cRangeEvents 10 50).1 cEvScreenshot,
   (c7_range_export cRangeEvents 10 50).2.2.2.2.2 "screenshots/1.png" (by decide)⟩

/-- C8 (amended): `save` with a range orders the caller's two bounds (an
inverted range is normalized by swapping, not rejected), clamps them to the
first and last `tRelMs` of the sorted timeline, and rejects exactly when the
clamped range selects zero events (which subsumes the empty clamped
interval). -/
theorem c8_range_validation :
    (∀ (sorted : List CaptureEvent) (x y : Int),
      normalizeExportRange sorted (some (x, y)) = normalizeExportRange sorted (some (y, x))) ∧
    (∀ (events : List CaptureEvent) (x y : Int) (firstEv lastEv : CaptureEvent),
      (sortEvents events).head? = some firstEv →
      (sortEvents events).getLast? = some lastEv →
      ((∃ msg, exportRangeResult events (some (x, y)) = Except.error msg) ↔
        ((sortEvents events).filter fun ev =>
          max firstEv.tRelMs (min x y) ≤ ev.tRelMs ∧
            ev.tRelMs ≤ min lastEv.tRelMs (max x y)).length = 0)) := by
  constructor
  · intro sorted x y
    rw [normalizeExportRange, normalizeExportRange, min_comm, max_comm]
  · intro events x y firstEv lastEv hhead hlast
    rw [exportRangeResult, normalizeExportRange, hhead, hlast]
    by_cases hlt : min lastEv.tRelMs (max x y) < max firstEv.tRelMs (min x y)
    · rw [if_pos hlt]
      constructor
      · intro _
        rw [List.length_eq_zero]
        rw [List.filter_eq_nil_iff]
        intro ev _
        simp only [decide_eq_true_eq, not_and]
        intro h1 h2
        omega
      · intro _
        exact ⟨"Selected range is outside the captured timeline.", rfl⟩
    · rw [if_neg hlt]
      dsimp only
      rw [show saveRangeSnapshotEvents events (max firstEv.tRelMs (min x y))
          (min lastEv.tRelMs (max x y)) =
        (if (filterRangeEvents events (max firstEv.tRelMs (min x y))
            (min lastEv.tRelMs (max x y))).length = 0 then
          Except.error "No events found in the selected range."
        else Except.ok (filterRangeEvents events (max firstEv.tRelMs (min x y))
          (min lastEv.tRelMs (max x y)))) from rfl]
      by_cases hz : (filterRangeEvents events (max firstEv.tRelMs (min x y))
          (min lastEv.tRelMs (max x y))).length = 0
      · rw [if_pos hz]
        constructor
        · intro _
          exact hz
        · intro _
          exact ⟨"No events found in the selected range.", rfl⟩
      · rw [if_neg hz]
        constructor
        · rintro ⟨msg, hmsg⟩
          exact absurd hmsg (by simp)
        · intro h
          exact absurd h hz

/-- Witness for C8: the swap equation at concrete inputs, and the rejection
characterization at the concrete timeline. -/
theorem c8_range_validation_witness :
    normalizeExportRange (sortEvents cRangeEvents) (some (50, 10)) =
      normalizeExportRange (sortEvents cRangeEvents) (some (10, 50)) ∧
    ((∃ msg, exportRangeResult cRangeEvents (some (50, 10)) = Except.error msg) ↔
      ((sortEvents cRangeEvents).filter fun ev =>
        max cEvStart.tRelMs (min (50 : Int) 10) ≤ ev.tRelMs ∧
          ev.tRelMs ≤ min cEvStop.tRelMs (max (50 : Int) 10)).length = 0) :=
  ⟨c8_range_validation.1 (sortEvents cRangeEvents) 50 10,
   c8_range_validation.2 cRangeEvents 50 10 cEvStart cEvStop (by decide) (by decide)⟩

/-- C8 counterexample: the caller-supplied range `{startMs: 50, endMs: 10}`
has `endMs < startMs`, yet `save` does not surface a validation error — the
bounds are swapped to `[10, 50]`, clamped, and the export proceeds,
selecting the event at `tRelMs = 30`. -/
theorem c8_counterexample :
    exportRangeResult cRangeEvents (some (50, 10)) =
      Except.ok (some [cEvScreenshot]) := by
  rfl

/-- Program counter of one non-timer `captureScreenshot(reason)` call,
tracking its position between `await` suspension points:
`start` = entered, about to run the synchronous prefix (lines 772–779);
`waiting j` = suspended in `await this.waitForOngoingScreenshot()` on the
run of call `j` that was recorded in `screenshotRun` at check time
(lines 777–778, 918–928); `running` = its own
`captureScreenshotInternal` run was started and recorded (lines 781–784)
and has not yet completed; `done` = its run completed and the `finally`
block ran (lines 785–789). -/
inductive ShotPC where
  | start : ShotPC
  | waiting : Nat → ShotPC
  | running : ShotPC
  | done : ShotPC
deriving DecidableEq

/-- The shared state of the single-threaded event loop: the pc of each
pending `captureScreenshot` call, and `this.screenshotRun` modelled as the
index of the call whose run it currently holds (`none` = null). -/
structure ShotSys where
  tasks : List ShotPC
  screenshotRun : Option Nat
deriving DecidableEq

/-- Replace the pc of task `i`. -/
def setTaskPc (ts : List ShotPC) (i : Nat) (pc : ShotPC) : List ShotPC :=
  ts.set i pc

/-- One synchronous segment of the event loop, exactly as the source
sequences it. `startFree`: a call finding `screenshotRun` null skips the
wait, starts `captureScreenshotInternal`, and stores its run (lines
777, 781–782). `beginWait`: a call finding `screenshotRun` set suspends
awaiting that recorded run (lines 777–778, 919, 924). `complete`: an
in-flight run finishes; the `finally` block nulls `screenshotRun` only if
it still holds this very run (lines 785–789). `resume`: a waiter whose
awaited run has settled resumes after the `await` and — without
re-checking `screenshotRun` — immediately starts its own
`captureScreenshotInternal` run and stores it (lines 781–782). -/
inductive ShotStep : ShotSys → ShotSys → Prop where
  | startFree (s : ShotSys) (i : Nat) (h : s.tasks[i]? = some ShotPC.start)
      (hfree : s.screenshotRun = none) :
      ShotStep s ⟨setTaskPc s.tasks i ShotPC.running, some i⟩
  | beginWait (s : ShotSys) (i j : Nat) (h : s.tasks[i]? = some ShotPC.start)
      (hbusy : s.screenshotRun = some j) :
      ShotStep s ⟨setTaskPc s.tasks i (ShotPC.waiting j), s.screenshotRun⟩
  | complete (s : ShotSys) (j : Nat) (h : s.tasks[j]? = some ShotPC.running) :
      ShotStep s ⟨setTaskPc s.tasks j ShotPC.done,
        if s.screenshotRun = some j then none else s.screenshotRun⟩
  | resume (s : ShotSys) (i j : Nat) (h : s.tasks[i]? = some (ShotPC.waiting j))
      (hdone : s.tasks[j]? = some ShotPC.done) :
      ShotStep s ⟨setTaskPc s.tasks i ShotPC.running, some i⟩

/-- Number of `captureScreenshotInternal` runs currently in flight. -/
def inFlight (s : ShotSys) : Nat :=
  (s.tasks.filter fun pc => pc = ShotPC.running).length

/-- Three non-timer screenshot requests pending, no capture in flight. -/
def c5Init : ShotSys :=
  ⟨[ShotPC.start, ShotPC.start, ShotPC.start], none⟩

/-- C5: the single-flight discipline is violated — from a state with three
pending non-timer requests, a legal event-loop schedule reaches a state
with two `captureScreenshotInternal` runs in flight at once. Two waiters
queue on the same in-flight run; after it completes, each resumes in turn
and starts its own run without re-checking `screenshotRun`, so the second
resume starts a capture while the first resumed capture is still in
flight. -/
theorem c5_single_flight :
    ∃ s : ShotSys, Relation.ReflTransGen ShotStep c5Init s ∧ 2 ≤ inFlight s := by
  refine ⟨⟨[ShotPC.done, ShotPC.running, ShotPC.running], some 2⟩, ?_, by decide⟩
  refine Relation.ReflTransGen.head (ShotStep.startFree c5Init 0 rfl rfl) ?_
  refine Relation.ReflTransGen.head (ShotStep.beginWait _ 1 0 rfl rfl) ?_
  refine Relation.ReflTransGen.head (ShotStep.beginWait _ 2 0 rfl rfl) ?_
  refine Relation.ReflTransGen.head (ShotStep.complete _ 0 rfl) ?_
  refine Relation.ReflTransGen.head (ShotStep.resume _ 1 0 rfl rfl) ?_
  refine Relation.ReflTransGen.head (ShotStep.resume _ 2 0 rfl rfl) ?_
  exact Relation.ReflTransGen.refl

end Tracer
